import Mathlib

/-!
# simple-ntp: the query/decode core of `main.go`

A shallow embedding of the Go functions `reqNtp`, `desc`, `parseNtpShortFormat`,
`parseNtpTimestampFormat`, `parseNtpTimestampFormatSplit`,
`convertNtpTimestampToIso8601ExtendedFormat`, `parseNtpBytes` and of the
`Execute` click handler of `main`.

Conventions.
* A Go `byte` is a `Fin 256`; a Go `int` is a 64-bit integer, held in `Int`.
* A Go `[]byte` is a `ByteSlice`: its `len` elements plus the rest of the backing
  array up to its capacity (a slice expression may reach up to the capacity).
* A run-time panic is the `Except.error` outcome; the Go `error` result of a
  function is an `Option String` (`none` is `nil`).
* A `float64` is a pair significand/exponent denoting `mant * 2 ^ exp`; every
  arithmetic operation rounds to 53 bits, to nearest, ties to even.
* Behaviour that Go leaves to the platform (the local time zone, the result of
  converting an out-of-range float to `int`) and the decimal rendering of
  `strconv.FormatFloat` are fields of a `Runtime`.
* The `fmt.Printf` lines of `parseNtpBytes` only log to standard output and are
  left out.
-/

namespace SimpleNtp

/-! ## Bytes, slices and panics -/

/-- A Go `byte`. -/
abbrev Byte := Fin 256

/-- The run-time panics the decoder can raise. -/
inductive Panic where
  | indexOutOfRange
  | sliceBoundsOutOfRange
  deriving DecidableEq, Repr

/-- A Go `[]byte`: `elems` are the `len` addressable elements, `spare` the part of
the backing array between the length and the capacity. -/
structure ByteSlice where
  elems : List Byte
  spare : List Byte
  deriving DecidableEq, Repr

namespace ByteSlice

/-- Go `len(s)`. -/
def len (s : ByteSlice) : Nat := s.elems.length

/-- Go `cap(s)`. -/
def cap (s : ByteSlice) : Nat := s.elems.length + s.spare.length

/-- Go `s[i]`: panics unless `i < len(s)`. -/
def index (s : ByteSlice) (i : Nat) : Except Panic Byte :=
  match s.elems[i]? with
  | some b => .ok b
  | none => .error .indexOutOfRange

/-- The part `lo .. hi` of the backing array as a slice: `hi - lo` elements, the rest of
the array behind them. -/
def window (s : ByteSlice) (lo hi : Nat) : ByteSlice :=
  ⟨((s.elems ++ s.spare).drop lo).take (hi - lo), (s.elems ++ s.spare).drop hi⟩

/-- Go `s[lo:hi]`: panics unless `lo <= hi <= cap(s)`; the result shares the
backing array, so its capacity is `cap(s) - lo`. -/
def slice (s : ByteSlice) (lo hi : Nat) : Except Panic ByteSlice :=
  if lo ≤ hi ∧ hi ≤ s.cap then .ok (s.window lo hi) else .error .sliceBoundsOutOfRange

/-- Go `make([]byte, n)`: `n` zero bytes, capacity `n`. -/
def make (n : Nat) : ByteSlice := ⟨List.replicate n 0, []⟩

/-- Go `s[i] = b` for an index known to be in range (a no-op model otherwise). -/
def set (s : ByteSlice) (i : Nat) (b : Byte) : ByteSlice := ⟨s.elems.set i b, s.spare⟩

/-- The byte at offset `i` of the backing array (0 past the capacity). -/
def byte (s : ByteSlice) (i : Nat) : Byte := (s.elems ++ s.spare).getD i 0

end ByteSlice

/-- Go `binary.BigEndian.Uint16(b)`: `_ = b[1]`, then `uint16(b[1]) | uint16(b[0])<<8`. -/
def bigEndianUint16 (b : ByteSlice) : Except Panic Nat := do
  let _ ← b.index 1
  let b1 ← b.index 1
  let b0 ← b.index 0
  pure (b1.val ||| (b0.val <<< 8))

/-- Go `binary.BigEndian.Uint32(b)`: `_ = b[3]`, then
`uint32(b[3]) | uint32(b[2])<<8 | uint32(b[1])<<16 | uint32(b[0])<<24`. -/
def bigEndianUint32 (b : ByteSlice) : Except Panic Nat := do
  let _ ← b.index 3
  let b3 ← b.index 3
  let b2 ← b.index 2
  let b1 ← b.index 1
  let b0 ← b.index 0
  pure (b3.val ||| (b2.val <<< 8) ||| (b1.val <<< 16) ||| (b0.val <<< 24))

/-! ## 64-bit integers -/

/-- The value a 64-bit two's-complement `int` holds after an arithmetic result `z`. -/
def wrap64 (z : Int) : Int := (z + 2 ^ 63) % 2 ^ 64 - 2 ^ 63

/-- Go `strconv.Itoa`. -/
def itoa (n : Int) : String := toString n

/-! ## binary64 arithmetic -/

/-- Number of bits of `n`, with `fuel` halvings. -/
def bitLenAux : Nat → Nat → Nat
  | 0, _ => 0
  | fuel + 1, n => if n = 0 then 0 else bitLenAux fuel (n / 2) + 1

/-- Number of bits of `n` (0 for 0). -/
def bitLen (n : Nat) : Nat := bitLenAux n n

/-- A finite `float64`, denoting `mant * 2 ^ exp`. The exponent range of binary64
is not modelled: every value the program computes lies between `2 ^ (-128)` and
`2 ^ 255 * 1000`, far inside the normal range. -/
structure F64 where
  mant : Int
  exp : Int
  deriving DecidableEq, Repr

namespace F64

/-- The rational number a float denotes. -/
def toRat (x : F64) : ℚ := (x.mant : ℚ) * (2 : ℚ) ^ x.exp

/-- Rounding of the exact value `mant * 2 ^ exp` to a 53-bit significand, to
nearest, ties to even. -/
def round (mant exp : Int) : F64 :=
  let a := mant.natAbs
  let n := bitLen a
  if n ≤ 53 then ⟨mant, exp⟩
  else
    let sh := n - 53
    let q := a / 2 ^ sh
    let r := a % 2 ^ sh
    let half := 2 ^ (sh - 1)
    let q' := if r < half then q else if half < r then q + 1 else q + q % 2
    ⟨mant.sign * (q' : Int), exp + (sh : Int)⟩

/-- Go `float64(n)` for an unsigned integer `n`, and an integer constant used as a
`float64`. -/
def ofNat (n : Nat) : F64 := round (n : Int) 0

/-- Go `x * y` on `float64`. -/
def mul (x y : F64) : F64 := round (x.mant * y.mant) (x.exp + y.exp)

/-- Go `x + y` on `float64`. -/
def add (x y : F64) : F64 :=
  let e := min x.exp y.exp
  round (x.mant * 2 ^ (x.exp - e).toNat + y.mant * 2 ^ (y.exp - e).toNat) e

/-- The integer part of a float (truncation toward zero). -/
def trunc (x : F64) : Int :=
  if 0 ≤ x.exp then x.mant * 2 ^ x.exp.toNat else Int.tdiv x.mant (2 ^ (-x.exp).toNat)

end F64

/-- Go `math.Pow(2, y)` for an integer `y`: the library computes powers of two
exactly. -/
def mathPow2 (y : Int) : F64 := ⟨1, y⟩

/-- What the Go run time and platform decide. -/
structure Runtime where
  /-- The rendering of `strconv.FormatFloat(x, 'f', -1, 64)` as a function of the value of
  `x`. -/
  formatFloat : ℚ → String
  /-- The result of `int(x)` for a float whose integer part is outside the range of `int`
  (the language leaves it to the implementation). -/
  intOverflow : ℚ → Int
  /-- The offset of `time.Local`, in seconds east of UTC, at a Unix time. -/
  localOffset : Int → Int

/-- Go `int(x)` of a `float64`: the fraction is discarded; out of range, the value is the
platform's. -/
def intOfFloat (rt : Runtime) (x : F64) : Int :=
  if -2 ^ 63 ≤ x.trunc ∧ x.trunc < 2 ^ 63 then x.trunc else wrap64 (rt.intOverflow x.toRat)

/-! ## A reference run time

`strconv.FormatFloat(x, 'f', -1, 64)` prints the shortest decimal that reads back as `x`
(the nearest to `x` among the shortest), without exponent. The theorems below hold for every
`Runtime`; this one serves to evaluate the decoder on concrete packets. -/

/-- The `p` with `10 ^ p ≤ q < 10 ^ (p + 1)` for a positive `q`, found in `fuel` steps from
the guess `p`. -/
def decimalExponent : Nat → ℚ → Int → Int
  | 0, _, p => p
  | fuel + 1, q, p =>
    if q < 10 ^ p then decimalExponent fuel q (p - 1)
    else if 10 ^ (p + 1) ≤ q then decimalExponent fuel q (p + 1)
    else p

/-- The `e` with `2 ^ e ≤ q < 2 ^ (e + 1)` for a positive `q`, found in `fuel` steps from the
guess `e`. -/
def binaryExponent : Nat → ℚ → Int → Int
  | 0, _, e => e
  | fuel + 1, q, e =>
    if q < 2 ^ e then binaryExponent fuel q (e - 1)
    else if 2 ^ (e + 1) ≤ q then binaryExponent fuel q (e + 1)
    else e

/-- The shortest decimal, of at least `n` digits, between the bounds `lo` and `hi` (taken
in when `incl`), the nearer to `q` when rounding down and up both fit; `p` is the decimal
exponent of `q`. -/
def shortestDecimal (q lo hi : ℚ) (incl : Bool) (p : Int) : Nat → Nat → ℚ
  | 0, _ => q
  | fuel + 1, n =>
    let s : ℚ := 10 ^ (p - (n : Int) + 1)
    let c : Int := ⌊q / s⌋
    let down : ℚ := c * s
    let up : ℚ := (c + 1) * s
    let okdown : Bool := if incl then lo ≤ down else lo < down
    let okup : Bool := if incl then up ≤ hi else up < hi
    if okdown && okup then
      if q - down < up - q then down
      else if up - q < q - down then up
      else if c % 2 = 0 then down else up
    else if okdown then down
    else if okup then up
    else shortestDecimal q lo hi incl p fuel (n + 1)

/-- The digits after the decimal point of a fraction `0 ≤ r < 1` with a finite expansion. -/
def fractionDigits : Nat → ℚ → List Char
  | 0, _ => []
  | fuel + 1, r =>
    if r = 0 then []
    else Nat.digitChar ⌊r * 10⌋.toNat :: fractionDigits fuel (r * 10 - ⌊r * 10⌋)

/-- A non-negative decimal written in full, without exponent. -/
def decimalString (r : ℚ) : String :=
  let whole : Int := ⌊r⌋
  let digits := fractionDigits 1100 (r - whole)
  if digits = [] then toString whole else toString whole ++ "." ++ String.mk digits

/-- Reference model of `strconv.FormatFloat(x, 'f', -1, 64)` on the value of a finite
`float64` in the normal range. -/
def formatFloatShortest (x : ℚ) : String :=
  if x = 0 then "0"
  else
    let q := |x|
    let e := binaryExponent 2200 q 0
    let ulp : ℚ := 2 ^ (e - 52)
    let lo := if q = 2 ^ e then q - ulp / 4 else q - ulp / 2
    let hi := q + ulp / 2
    let incl : Bool := ⌊q / ulp⌋ % 2 = 0
    let r := shortestDecimal q lo hi incl (decimalExponent 700 q 0) 17 1
    (if x < 0 then "-" else "") ++ decimalString r

/-- A 64-bit x86 machine whose local zone is UTC: an out-of-range conversion to `int` gives
the smallest `int`. -/
def amd64UTC : Runtime where
  formatFloat := formatFloatShortest
  intOverflow := fun _ => -2 ^ 63
  localOffset := fun _ => 0

/-! ## The helpers of `main.go` -/

/-- Source: `UNIX_TIME_OFFSET`. -/
def UNIX_TIME_OFFSET : Int := 2208988800

/-- Source: `NTP_PORT`. -/
def NTP_PORT : Int := 123

/-- Source: `NTP_TIMEOUT`. -/
def NTP_TIMEOUT : Int := 10

/-- Source: `desc`. -/
def desc (number : Int) (describe : String) : String :=
  itoa number ++ " (" ++ describe ++ ")"

/-- Source: `parseNtpShortFormat`. -/
def parseNtpShortFormat (t : ByteSlice) : Except Panic F64 := do
  let s := F64.ofNat (← bigEndianUint16 (← t.slice 0 2))
  let f := F64.mul (F64.ofNat (← bigEndianUint16 (← t.slice 2 4))) (mathPow2 (-16))
  pure (F64.add s f)

/-- Source: `parseNtpTimestampFormat`. -/
def parseNtpTimestampFormat (t : ByteSlice) : Except Panic F64 := do
  let s := F64.ofNat (← bigEndianUint32 (← t.slice 0 4))
  let f := F64.mul (F64.ofNat (← bigEndianUint32 (← t.slice 4 8))) (mathPow2 (-32))
  pure (F64.add s f)

/-- Source: `parseNtpTimestampFormatSplit`. -/
def parseNtpTimestampFormatSplit (rt : Runtime) (t : ByteSlice) : Except Panic (Int × Int) := do
  let seconds : Int := ((← bigEndianUint32 (← t.slice 0 4)) : Nat)
  let fractionNano := intOfFloat rt
    (F64.mul (F64.mul (F64.ofNat (← bigEndianUint32 (← t.slice 4 8))) (mathPow2 (-32)))
      (F64.ofNat 1000000000))
  pure (seconds, fractionNano)

/-! ## Calendar rendering: `time.Unix(s, f).Format(time.RFC3339Nano)` -/

/-- An instant as `time.Unix` normalises it: whole seconds since 1970-01-01T00:00:00Z
and nanoseconds in `[0, 999999999]`. -/
structure Instant where
  sec : Int
  nsec : Int
  deriving DecidableEq, Repr

/-- Go `time.Unix(sec, nsec)`: a nanosecond count outside `[0, 999999999]` is carried
into the seconds. -/
def timeUnix (sec nsec : Int) : Instant :=
  if nsec < 0 ∨ nsec ≥ 1000000000 then
    let n := Int.tdiv nsec 1000000000
    let sec := sec + n
    let nsec := nsec - n * 1000000000
    if nsec < 0 then ⟨sec - 1, nsec + 1000000000⟩ else ⟨sec, nsec⟩
  else ⟨sec, nsec⟩

/-- A date and time of day in the proleptic Gregorian calendar. -/
structure Civil where
  year : Int
  month : Int
  day : Int
  hour : Int
  minute : Int
  second : Int
  deriving DecidableEq, Repr

/-- The calendar fields of the second `local` (seconds since 1970-01-01T00:00:00 in the
zone of the rendering): days are counted in 400-year eras starting on 1 March. -/
def civilOfSeconds (loc : Int) : Civil :=
  let days := loc / 86400
  let rem := loc % 86400
  let z := days + 719468
  let era := z / 146097
  let doe := z % 146097
  let yoe := (doe - doe / 1460 + doe / 36524 - doe / 146096) / 365
  let doy := doe - (365 * yoe + yoe / 4 - yoe / 100)
  let mp := (5 * doy + 2) / 153
  let d := doy - (153 * mp + 2) / 5 + 1
  let m := if mp < 10 then mp + 3 else mp - 9
  let y := yoe + era * 400 + (if m ≤ 2 then 1 else 0)
  ⟨y, m, d, rem / 3600, rem % 3600 / 60, rem % 60⟩

/-- Go `appendInt(b, x, width)` of package `time`: a sign for a negative number, then the
decimal digits padded with zeros to `width`. -/
def appendInt (x : Int) (width : Nat) : String :=
  let digits := toString x.natAbs
  (if x < 0 then "-" else "") ++ String.mk (List.replicate (width - digits.length) '0') ++ digits

/-- Drops the zeros at the end of a digit string. -/
def trimTrailingZeros (s : String) : String :=
  String.mk (s.data.reverse.dropWhile (fun c => c == '0')).reverse

/-- The `.999999999` element of the layout: nothing for zero nanoseconds, else a point and
nine digits with the trailing zeros removed. -/
def appendNano (nsec : Int) : String :=
  if nsec = 0 then "" else "." ++ trimTrailingZeros (appendInt nsec 9)

/-- The `Z07:00` element of the layout: `Z` for offset zero, else sign, hours, colon,
minutes. -/
def appendZone (offset : Int) : String :=
  if offset = 0 then "Z"
  else
    let zone := Int.tdiv offset 60
    let sign := if zone < 0 then "-" else "+"
    let zone := if zone < 0 then -zone else zone
    sign ++ appendInt (zone / 60) 2 ++ ":" ++ appendInt (zone % 60) 2

/-- Go `t.Format(time.RFC3339Nano)`, layout `2006-01-02T15:04:05.999999999Z07:00`, for an
instant shown in a zone `offset` seconds east of UTC. -/
def formatRFC3339Nano (offset : Int) (t : Instant) : String :=
  let c := civilOfSeconds (t.sec + offset)
  appendInt c.year 4 ++ "-" ++ appendInt c.month 2 ++ "-" ++ appendInt c.day 2 ++ "T" ++
    appendInt c.hour 2 ++ ":" ++ appendInt c.minute 2 ++ ":" ++ appendInt c.second 2 ++
    appendNano t.nsec ++ appendZone offset

/-- Source: `convertNtpTimestampToIso8601ExtendedFormat`. `time.Unix` yields a time in
`time.Local`. -/
def convertNtpTimestampToIso8601ExtendedFormat (rt : Runtime) (s f : Int) : String :=
  let s := wrap64 (s - UNIX_TIME_OFFSET)
  let t := timeUnix s f
  formatRFC3339Nano (rt.localOffset t.sec) t

/-! ## The decoder -/

/-- One upper-case hexadecimal digit. -/
def hexDigit (d : Nat) : Char := if d < 10 then Char.ofNat (48 + d) else Char.ofNat (55 + d)

/-- Go `fmt.Sprintf("%02X", b)` for a byte. -/
def sprintf02X (b : Byte) : String := String.mk [hexDigit (b.val / 16), hexDigit (b.val % 16)]

/-- Go `string(b)` for a byte: the one-character string of the code point `b`. -/
def stringOfByte (b : Byte) : String := String.singleton (Char.ofNat b.val)

/-- Go `int(int8(b))`: the byte read as a two's-complement number. -/
def int8 (b : Byte) : Int := if b.val < 128 then (b.val : Int) else (b.val : Int) - 256

/-- Source: `parseNtpBytes`. The result pairs the slice of thirteen strings with the Go
`error` value. -/
def parseNtpBytes (rt : Runtime) (ntpQuery : ByteSlice) (ipv4Disp msDisp : Bool) :
    Except Panic (List String × Option String) := do
  let firstByte ← ntpQuery.index 0
  let leapIndicatorByte : Int := ((firstByte.val >>> 6 : Nat) : Int)
  let versionNumber : Int := ((firstByte.val >>> 3 : Nat) : Int)
  let modeByte : Int := ((firstByte.val &&& 0x07 : Nat) : Int)
  let leapIndicator :=
    if leapIndicatorByte = 0 then desc leapIndicatorByte "No Warning"
    else if leapIndicatorByte = 1 then desc leapIndicatorByte "Last minute of the day has 61 seconds"
    else if leapIndicatorByte = 2 then desc leapIndicatorByte "Last minute of the day has 59 seconds"
    else desc leapIndicatorByte "Unknown"
  let mode :=
    if modeByte = 0 then desc modeByte "Reserved"
    else if modeByte = 1 then desc modeByte "Symmetric Active"
    else if modeByte = 2 then desc modeByte "Symmetric Passive"
    else if modeByte = 3 then desc modeByte "Client"
    else if modeByte = 4 then desc modeByte "Server"
    else if modeByte = 5 then desc modeByte "Broadcast"
    else if modeByte = 6 then desc modeByte "NTP Control Message"
    else if modeByte = 7 then desc modeByte "Reserved for private use"
    else desc modeByte "Unknown"
  let stratumByte : Int := (((← ntpQuery.index 1).val : Nat) : Int)
  let stratum :=
    if stratumByte = 0 then desc stratumByte "Unspecified or invalid"
    else if stratumByte = 1 then desc stratumByte "Primary Server"
    else if stratumByte ≥ 2 ∧ stratumByte ≤ 15 then desc stratumByte "Secondary Server"
    else if stratumByte = 16 then desc stratumByte "Unsynchronized"
    else desc stratumByte "Reserved"
  let pollIntervalByte : Int := (((← ntpQuery.index 2).val : Nat) : Int)
  let pollInterval := itoa (intOfFloat rt (mathPow2 pollIntervalByte)) ++ " seconds"
  let timeUnit := if msDisp then " ms" else " seconds"
  let precisionByte : Int := int8 (← ntpQuery.index 3)
  let precisionSeconds := mathPow2 precisionByte
  let precisionSeconds :=
    if msDisp then F64.mul precisionSeconds (F64.ofNat 1000) else precisionSeconds
  let precision := rt.formatFloat precisionSeconds.toRat ++ timeUnit
  let rootDelayBytes ← ntpQuery.slice 4 8
  let rootDelaySeconds ← parseNtpShortFormat rootDelayBytes
  let rootDelaySeconds :=
    if msDisp then F64.mul rootDelaySeconds (F64.ofNat 1000) else rootDelaySeconds
  let rootDelay := rt.formatFloat rootDelaySeconds.toRat ++ timeUnit
  let rootDispersionBytes ← ntpQuery.slice 8 12
  let rootDispersionSeconds ← parseNtpShortFormat rootDispersionBytes
  let rootDispersionSeconds :=
    if msDisp then F64.mul rootDispersionSeconds (F64.ofNat 1000) else rootDispersionSeconds
  let rootDispersion := rt.formatFloat rootDispersionSeconds.toRat ++ timeUnit
  let referenceIDByte ← ntpQuery.slice 12 16
  let referenceID :=
    if stratumByte = 1 then
      referenceIDByte.elems.foldl
        (fun acc b => if (b.val : Int) ≠ 0 then acc ++ stringOfByte b else acc) ""
    else
      let referenceID := referenceIDByte.elems.foldl (fun acc b => acc ++ sprintf02X b) ""
      let referenceIDArrString :=
        referenceIDByte.elems.foldl (fun acc b => acc ++ [itoa (b.val : Int)]) []
      let IPFormReferenceID := ".".intercalate referenceIDArrString
      if ipv4Disp then referenceID ++ " (IPv4 form: " ++ IPFormReferenceID ++ ")"
      else referenceID
  let referenceTimestampByte ← ntpQuery.slice 16 24
  let (referenceTimestampSecond, referenceTimestampFraction) ←
    parseNtpTimestampFormatSplit rt referenceTimestampByte
  let referenceTimestamp :=
    rt.formatFloat (← parseNtpTimestampFormat referenceTimestampByte).toRat ++ " (" ++
      convertNtpTimestampToIso8601ExtendedFormat rt referenceTimestampSecond
        referenceTimestampFraction ++ ")"
  let originTimestampByte ← ntpQuery.slice 24 32
  let (originTimestampSecond, originTimestampFraction) ←
    parseNtpTimestampFormatSplit rt originTimestampByte
  let originTimestamp :=
    rt.formatFloat (← parseNtpTimestampFormat originTimestampByte).toRat ++ " (" ++
      convertNtpTimestampToIso8601ExtendedFormat rt originTimestampSecond
        originTimestampFraction ++ ")"
  let receiveTimestampByte ← ntpQuery.slice 32 40
  let (receiveTimestampSecond, receiveTimestampFraction) ←
    parseNtpTimestampFormatSplit rt receiveTimestampByte
  let recieveTimestamp :=
    rt.formatFloat (← parseNtpTimestampFormat receiveTimestampByte).toRat ++ " (" ++
      convertNtpTimestampToIso8601ExtendedFormat rt receiveTimestampSecond
        receiveTimestampFraction ++ ")"
  let transmitTimestampByte ← ntpQuery.slice 40 48
  let (transmitTimestampSecond, transmitTimestampFraction) ←
    parseNtpTimestampFormatSplit rt transmitTimestampByte
  let transmitTimestamp :=
    rt.formatFloat (← parseNtpTimestampFormat transmitTimestampByte).toRat ++ " (" ++
      convertNtpTimestampToIso8601ExtendedFormat rt transmitTimestampSecond
        transmitTimestampFraction ++ ")"
  pure ([leapIndicator, itoa versionNumber, mode, stratum, pollInterval, precision, rootDelay,
    rootDispersion, referenceID, referenceTimestamp, originTimestamp, recieveTimestamp,
    transmitTimestamp], none)

/-! ## The transport and the click handler -/

/-- What the network does during one exchange: the outcome of `net.Dial`, of `s.Write` and of
`s.Read` (the datagram received and the error), given the address and the deadline. -/
structure Network where
  dial : String → Option String
  write : Int → List Byte → Option String
  read : Int → List Byte × Option String

/-- The outcome of `reqNtp`: the two Go results and the datagrams handed to `s.Write`. -/
structure Exchange where
  buffer : ByteSlice
  err : Option String
  written : List (List Byte)

/-- Source: `reqNtp`. `s.Read` copies the datagram, cut to the length of the buffer, over
the front of the request buffer. -/
def reqNtp (net : Network) (host : String) (port timeout : Int) : Exchange :=
  let ntpQuery := (ByteSlice.make 48).set 0 0x1b
  match net.dial (host ++ ":" ++ itoa port) with
  | some err => ⟨ntpQuery, some err, []⟩
  | none =>
    match net.write timeout ntpQuery.elems with
    | some err => ⟨ntpQuery, some err, [ntpQuery.elems]⟩
    | none =>
      let received := (net.read timeout).1.take ntpQuery.len
      ⟨⟨received ++ ntpQuery.elems.drop received.length, ntpQuery.spare⟩, (net.read timeout).2,
        [ntpQuery.elems]⟩

/-- Source: the `OnClicked` handler of the `Execute` button up to the call of `reqNtp`:
the arguments of that call, or `none` when the handler returns before it. `host` is the
trimmed text of the host field, `port` and `timeout` the numbers of the two number fields
converted to `int`. -/
def executeArgs (host : String) (port timeout : Int) : Option (String × Int × Int) :=
  if host = "" then none
  else
    let port := if port < 0 ∨ port > 65535 then NTP_PORT else port
    let timeout := if timeout < 0 then NTP_TIMEOUT else timeout
    some (host, port, timeout)

/-! ## What the decoder reads, in closed form -/

/-- The big-endian unsigned 32-bit value of the four bytes at offset `i`. -/
def be32 (s : ByteSlice) (i : Nat) : Nat :=
  (s.byte i).val * 16777216 + (s.byte (i + 1)).val * 65536 + (s.byte (i + 2)).val * 256 +
    (s.byte (i + 3)).val

/-- The nanosecond fraction the decoder derives from a 32-bit fraction: the integer part of
`fraction / 2 ^ 32 * 10 ^ 9`. -/
def nanoOfFraction (fraction : Nat) : Nat := fraction * 1000000000 / 4294967296

/-- The `float64` read from the eight bytes at offset `i`: the 64-bit value rounded to 53
bits, scaled by `2 ^ (-32)`. -/
def timestampFloat (s : ByteSlice) (i : Nat) : F64 :=
  F64.round ((be32 s i : Int) * 4294967296 + (be32 s (i + 4) : Int)) (-32)

/-- The text of a timestamp field for the eight bytes at offset `i`. -/
def timestampText (rt : Runtime) (s : ByteSlice) (i : Nat) : String :=
  rt.formatFloat (timestampFloat s i).toRat ++ " (" ++
    convertNtpTimestampToIso8601ExtendedFormat rt (be32 s i) (nanoOfFraction (be32 s (i + 4))) ++
    ")"

/-- Field 0, from byte 0. -/
def leapIndicatorField (b0 : Byte) : String :=
  let leapIndicatorByte : Int := ((b0.val >>> 6 : Nat) : Int)
  if leapIndicatorByte = 0 then desc leapIndicatorByte "No Warning"
  else if leapIndicatorByte = 1 then desc leapIndicatorByte "Last minute of the day has 61 seconds"
  else if leapIndicatorByte = 2 then desc leapIndicatorByte "Last minute of the day has 59 seconds"
  else desc leapIndicatorByte "Unknown"

/-- Field 1, from byte 0. -/
def versionField (b0 : Byte) : String := itoa ((b0.val >>> 3 : Nat) : Int)

/-- Field 2, from byte 0. -/
def modeField (b0 : Byte) : String :=
  let modeByte : Int := ((b0.val &&& 0x07 : Nat) : Int)
  if modeByte = 0 then desc modeByte "Reserved"
  else if modeByte = 1 then desc modeByte "Symmetric Active"
  else if modeByte = 2 then desc modeByte "Symmetric Passive"
  else if modeByte = 3 then desc modeByte "Client"
  else if modeByte = 4 then desc modeByte "Server"
  else if modeByte = 5 then desc modeByte "Broadcast"
  else if modeByte = 6 then desc modeByte "NTP Control Message"
  else if modeByte = 7 then desc modeByte "Reserved for private use"
  else desc modeByte "Unknown"

/-- Field 3, from byte 1. -/
def stratumField (b1 : Byte) : String :=
  let stratumByte : Int := ((b1.val : Nat) : Int)
  if stratumByte = 0 then desc stratumByte "Unspecified or invalid"
  else if stratumByte = 1 then desc stratumByte "Primary Server"
  else if stratumByte ≥ 2 ∧ stratumByte ≤ 15 then desc stratumByte "Secondary Server"
  else if stratumByte = 16 then desc stratumByte "Unsynchronized"
  else desc stratumByte "Reserved"

/-- Field 4, from byte 2. -/
def pollField (rt : Runtime) (b2 : Byte) : String :=
  itoa (intOfFloat rt (mathPow2 ((b2.val : Nat) : Int))) ++ " seconds"

/-- The unit suffix of fields 5 to 7. -/
def timeUnitOf (msDisp : Bool) : String := if msDisp then " ms" else " seconds"

/-- The `*= 1000` of fields 5 to 7 under the millisecond option. -/
def scaledBy (msDisp : Bool) (x : F64) : F64 := if msDisp then F64.mul x (F64.ofNat 1000) else x

/-- Field 5, from byte 3. -/
def precisionField (rt : Runtime) (b3 : Byte) (msDisp : Bool) : String :=
  rt.formatFloat (scaledBy msDisp (mathPow2 (int8 b3))).toRat ++ timeUnitOf msDisp

/-- Fields 6 and 7, from the 32-bit value `v` of bytes 4-7 and 8-11. -/
def shortField (rt : Runtime) (v : Nat) (msDisp : Bool) : String :=
  rt.formatFloat (scaledBy msDisp ⟨(v : Int), -16⟩).toRat ++ timeUnitOf msDisp

/-- Field 8, from byte 1 and bytes 12-15. -/
def referenceIDField (b1 : Byte) (referenceIDByte : List Byte) (ipv4Disp : Bool) : String :=
  let stratumByte : Int := ((b1.val : Nat) : Int)
  if stratumByte = 1 then
    referenceIDByte.foldl
      (fun acc b => if (b.val : Int) ≠ 0 then acc ++ stringOfByte b else acc) ""
  else
    let referenceID := referenceIDByte.foldl (fun acc b => acc ++ sprintf02X b) ""
    let referenceIDArrString :=
      referenceIDByte.foldl (fun acc b => acc ++ [itoa (b.val : Int)]) []
    let IPFormReferenceID := ".".intercalate referenceIDArrString
    if ipv4Disp then referenceID ++ " (IPv4 form: " ++ IPFormReferenceID ++ ")"
    else referenceID

/-- The thirteen strings `parseNtpBytes` computes, written as a function of the bytes of the
backing array (no access can fail here). -/
def decodedFields (rt : Runtime) (q : ByteSlice) (ipv4Disp msDisp : Bool) : List String :=
  [ leapIndicatorField (q.byte 0), versionField (q.byte 0), modeField (q.byte 0),
    stratumField (q.byte 1), pollField rt (q.byte 2), precisionField rt (q.byte 3) msDisp,
    shortField rt (be32 q 4) msDisp, shortField rt (be32 q 8) msDisp,
    referenceIDField (q.byte 1) [q.byte 12, q.byte 13, q.byte 14, q.byte 15] ipv4Disp,
    timestampText rt q 16, timestampText rt q 24, timestampText rt q 32, timestampText rt q 40 ]

/-! ## Sample packets -/

/-- A 48-byte reply whose first byte is `0xDB` (leap 3, version 3, mode 3), the rest zero. -/
def replyDB : ByteSlice := ⟨0xDB :: List.replicate 47 0, []⟩

/-- A 48-byte server reply (leap 0, version 3, mode 4, stratum 2) whose poll byte is 63, with
reference ID 1.2.3.4 and a root delay of 1.5 s. -/
def replyPoll63 : ByteSlice :=
  ⟨[0x1C, 2, 63, 0xEC, 0, 1, 0x80, 0, 0, 0, 0, 1, 1, 2, 3, 4] ++ List.replicate 32 0, []⟩

/-- A 48-byte reply of a primary server (stratum 1) with reference ID `GPS\0`. -/
def replyGPS : ByteSlice :=
  ⟨[0x1C, 1, 6, 0xEC, 0, 1, 0x80, 0, 0, 0, 0, 1, 0x47, 0x50, 0x53, 0] ++ List.replicate 32 0, []⟩

/-! ## The reference identifier in the words of the specification -/

/-- The sixteen upper-case hexadecimal digits. -/
def upperHexDigits : List Char := "0123456789ABCDEF".toList

/-- A byte as two upper-case hexadecimal digits. -/
def hexPair (b : Byte) : String :=
  String.mk [upperHexDigits.getD (b.val / 16) '0', upperHexDigits.getD (b.val % 16) '0']

/-- The reference-ID text the specification describes for stratum byte `stratum`, the four
bytes `b0 .. b3` and the dotted-decimal option: at stratum 1 the non-zero bytes, in order,
one character each; otherwise eight hexadecimal digits, followed by the dotted-decimal form
in parentheses when the option is on. -/
def referenceIDSpec (stratum b0 b1 b2 b3 : Byte) (dotted : Bool) : String :=
  if stratum.val = 1 then
    String.mk (([b0, b1, b2, b3].filter (fun b => b.val ≠ 0)).map (fun b => Char.ofNat b.val))
  else
    hexPair b0 ++ hexPair b1 ++ hexPair b2 ++ hexPair b3 ++
      (if dotted then
        " (IPv4 form: " ++ toString b0.val ++ "." ++ toString b1.val ++ "." ++
          toString b2.val ++ "." ++ toString b3.val ++ ")"
      else "")

/-! ## The nanosecond fraction in the words of the specification -/

/-- The nanosecond fraction the specification describes: `fraction / 2 ^ 32 * 10 ^ 9` rounded
to the nearest integer. -/
def specFractionNano (fraction : Nat) : Int := round ((fraction : ℚ) / 2 ^ 32 * 10 ^ 9)

/-- The empty buffer. -/
def emptyBuffer : ByteSlice := ⟨[], []⟩

/-- A buffer of four bytes whose backing array holds 48: Go `make([]byte, 4, 48)` with the
first bytes set. -/
def shortBufferLongArray : ByteSlice := ⟨[0x1C, 2, 6, 0xEC], List.replicate 44 0⟩

/-- The 8-byte timestamp `00 00 00 01 80 00 00 00` (1.5 s). -/
def timestampOneAndHalf : ByteSlice := ⟨[0, 0, 0, 1, 0x80, 0, 0, 0], []⟩

/-- The 8-byte timestamp `00 00 00 00 00 00 00 03`: a fraction of `3 / 2 ^ 32` s, about
0.7 ns. -/
def timestampThreeUnits : ByteSlice := ⟨[0, 0, 0, 0, 0, 0, 0, 3], []⟩

/-! ## The Gregorian calendar, counted forward -/

/-- Leap years of the proleptic Gregorian calendar. -/
def isLeapYear (y : Int) : Bool := y % 4 = 0 ∧ (y % 100 ≠ 0 ∨ y % 400 = 0)

/-- Days from 1970-01-01 to 1 January of year `y`: 365 a year plus one for each leap year
in between. -/
def daysBeforeYear (y : Int) : Int :=
  365 * (y - 1970) + ((y - 1) / 4 - (y - 1) / 100 + (y - 1) / 400) - 477

/-- Days from 1 January of year `y` to the first of month `m`. -/
def daysBeforeMonth (y m : Int) : Int :=
  (if m = 1 then 0 else if m = 2 then 31 else if m = 3 then 59 else if m = 4 then 90
   else if m = 5 then 120 else if m = 6 then 151 else if m = 7 then 181 else if m = 8 then 212
   else if m = 9 then 243 else if m = 10 then 273 else if m = 11 then 304 else 334) +
  (if 2 < m ∧ isLeapYear y = true then 1 else 0)

/-- Length of month `m` of year `y`. -/
def daysInMonth (y m : Int) : Int :=
  if m = 2 then (if isLeapYear y = true then 29 else 28)
  else if m = 4 ∨ m = 6 ∨ m = 9 ∨ m = 11 then 30 else 31

/-- The second that a date and time of day denote, counted from 1970-01-01T00:00:00. -/
def secondsOfCivil (c : Civil) : Int :=
  (daysBeforeYear c.year + daysBeforeMonth c.year c.month + (c.day - 1)) * 86400 +
    c.hour * 3600 + c.minute * 60 + c.second

/-- A date that exists in the calendar, with a time of day. -/
def Civil.IsValid (c : Civil) : Prop :=
  1 ≤ c.month ∧ c.month ≤ 12 ∧ 1 ≤ c.day ∧ c.day ≤ daysInMonth c.year c.month ∧
    0 ≤ c.hour ∧ c.hour < 24 ∧ 0 ≤ c.minute ∧ c.minute < 60 ∧ 0 ≤ c.second ∧ c.second < 60

/-- A 64-bit x86 machine whose local zone is nine hours east of UTC. -/
def amd64Tokyo : Runtime where
  formatFloat := formatFloatShortest
  intOverflow := fun _ => -2 ^ 63
  localOffset := fun _ => 32400

/-! ## Slices: when an access succeeds and what it reads -/

theorem ByteSlice.len_le_cap (s : ByteSlice) : s.len ≤ s.cap := by
  simp [ByteSlice.len, ByteSlice.cap]

theorem ByteSlice.index_ok (s : ByteSlice) (i : Nat) (h : i < s.len) :
    s.index i = .ok (s.byte i) := by
  have h' : i < s.elems.length := h
  simp [ByteSlice.index, ByteSlice.byte, List.getD_eq_getElem?_getD,
    List.getElem?_append_left h', List.getElem?_eq_getElem h']

theorem ByteSlice.index_panic (s : ByteSlice) (i : Nat) (h : s.len ≤ i) :
    s.index i = .error .indexOutOfRange := by
  have h' : s.elems.length ≤ i := h
  simp [ByteSlice.index, List.getElem?_eq_none h']

theorem ByteSlice.slice_ok (s : ByteSlice) (lo hi : Nat) (h1 : lo ≤ hi) (h2 : hi ≤ s.cap) :
    s.slice lo hi = .ok (s.window lo hi) := by
  simp [ByteSlice.slice, h1, h2]

theorem ByteSlice.slice_panic (s : ByteSlice) (lo hi : Nat) (h : s.cap < hi) :
    s.slice lo hi = .error .sliceBoundsOutOfRange := by
  have : ¬ hi ≤ s.cap := by omega
  simp [ByteSlice.slice, this]

theorem ByteSlice.window_len (s : ByteSlice) (lo hi : Nat) (h2 : hi ≤ s.cap) :
    (s.window lo hi).len = hi - lo := by
  simp only [ByteSlice.cap] at h2
  simp only [ByteSlice.window, ByteSlice.len, List.length_take, List.length_drop,
    List.length_append]
  omega

theorem ByteSlice.window_cap (s : ByteSlice) (lo hi : Nat) (h1 : lo ≤ hi) (h2 : hi ≤ s.cap) :
    (s.window lo hi).cap = s.cap - lo := by
  simp only [ByteSlice.cap] at h2
  simp only [ByteSlice.window, ByteSlice.cap, List.length_take, List.length_drop,
    List.length_append]
  omega

theorem ByteSlice.window_byte (s : ByteSlice) (lo hi i : Nat) (h1 : lo ≤ hi) :
    (s.window lo hi).byte i = s.byte (lo + i) := by
  have e : ((s.elems ++ s.spare).drop lo).take (hi - lo) ++ (s.elems ++ s.spare).drop hi
      = (s.elems ++ s.spare).drop lo := by
    have : (s.elems ++ s.spare).drop hi = ((s.elems ++ s.spare).drop lo).drop (hi - lo) := by
      rw [List.drop_drop]; congr 1; omega
    rw [this, List.take_append_drop]
  simp only [ByteSlice.byte, ByteSlice.window, e, List.getD_eq_getElem?_getD, List.getElem?_drop]

/-! ## Big-endian words -/

theorem lor_shiftLeft (x y k : Nat) (h : x < 2 ^ k) : x ||| (y <<< k) = y * 2 ^ k + x := by
  rw [Nat.shiftLeft_eq, Nat.lor_comm, Nat.mul_comm y, Nat.mul_add_lt_is_or h]

theorem lor_shiftLeft_8 (x y : Nat) (h : x < 256) : x ||| (y <<< 8) = y * 256 + x := by
  have := lor_shiftLeft x y 8 (by norm_num; exact h)
  norm_num at this
  exact this

theorem lor_shiftLeft_16 (x y : Nat) (h : x < 65536) : x ||| (y <<< 16) = y * 65536 + x := by
  have := lor_shiftLeft x y 16 (by norm_num; exact h)
  norm_num at this
  exact this

theorem lor_shiftLeft_24 (x y : Nat) (h : x < 16777216) :
    x ||| (y <<< 24) = y * 16777216 + x := by
  have := lor_shiftLeft x y 24 (by norm_num; exact h)
  norm_num at this
  exact this

theorem bigEndianUint16_ok (b : ByteSlice) (h : 2 ≤ b.len) :
    bigEndianUint16 b = .ok ((b.byte 0).val * 256 + (b.byte 1).val) := by
  simp only [bigEndianUint16, b.index_ok 1 (by omega), b.index_ok 0 (by omega), bind,
    Except.bind, pure, Except.pure]
  rw [lor_shiftLeft_8 _ _ (b.byte 1).isLt]

theorem bigEndianUint32_ok (b : ByteSlice) (h : 4 ≤ b.len) :
    bigEndianUint32 b = .ok ((b.byte 0).val * 16777216 + (b.byte 1).val * 65536 +
      (b.byte 2).val * 256 + (b.byte 3).val) := by
  simp only [bigEndianUint32, b.index_ok 3 (by omega), b.index_ok 2 (by omega),
    b.index_ok 1 (by omega), b.index_ok 0 (by omega), bind, Except.bind, pure, Except.pure]
  have h1 := (b.byte 1).isLt
  have h2 := (b.byte 2).isLt
  have h3 := (b.byte 3).isLt
  rewrite [lor_shiftLeft_8 _ _ h3, lor_shiftLeft_16 _ _ (by omega),
    lor_shiftLeft_24 _ _ (by omega)]
  exact congrArg Except.ok (by omega)

/-! ## binary64: when rounding is exact -/

theorem bitLenAux_le (fuel : Nat) : ∀ (n k : Nat), n < 2 ^ k → bitLenAux fuel n ≤ k := by
  induction fuel with
  | zero => intro n k _; simp [bitLenAux]
  | succ f ih =>
    intro n k h
    simp only [bitLenAux]
    split
    · omega
    · rename_i hn
      cases k with
      | zero => simp at h; omega
      | succ k =>
        have : n / 2 < 2 ^ k := by
          rw [Nat.pow_succ] at h
          omega
        have := ih (n / 2) k this
        omega

theorem bitLen_le (n k : Nat) (h : n < 2 ^ k) : bitLen n ≤ k := bitLenAux_le n n k h

theorem F64.round_exact (mant exp : Int) (h : mant.natAbs < 2 ^ 53) :
    F64.round mant exp = ⟨mant, exp⟩ := by
  simp [F64.round, bitLen_le _ 53 h]

theorem F64.ofNat_exact (n : Nat) (h : n < 2 ^ 53) : F64.ofNat n = ⟨(n : Int), 0⟩ := by
  apply F64.round_exact
  simpa using h

theorem F64.mul_exact (x y : F64) (h : (x.mant * y.mant).natAbs < 2 ^ 53) :
    F64.mul x y = ⟨x.mant * y.mant, x.exp + y.exp⟩ := F64.round_exact _ _ h

/-- When the low bits that rounding drops are all zero, the integer part of the rounded
value is the integer part of the exact one. -/
theorem F64.trunc_round_of_dvd (a k : Nat) (ha : a < 2 ^ (53 + 9)) (hk : 10 ≤ k)
    (hd : 2 ^ 9 ∣ a) : (F64.round (a : Int) (-(k : Int))).trunc = ((a / 2 ^ k : Nat) : Int) := by
  unfold F64.round
  simp only [Int.natAbs_ofNat]
  split
  · simp only [F64.trunc]
    have : ¬ (0 : Int) ≤ -(k : Int) := by omega
    simp only [this, if_false, neg_neg, Int.toNat_ofNat]
    rw [Int.tdiv_eq_ediv (by positivity) (by positivity)]
    norm_cast
  · rename_i hlen
    have hb : bitLen a ≤ 62 := bitLen_le a 62 ha
    obtain ⟨sh, hsh⟩ : ∃ sh, bitLen a - 53 = sh := ⟨_, rfl⟩
    have hsh1 : 1 ≤ sh := by omega
    have hsh9 : sh ≤ 9 := by omega
    have hdvd : 2 ^ sh ∣ a := Dvd.dvd.trans (Nat.pow_dvd_pow 2 hsh9) hd
    have hr : a % 2 ^ sh = 0 := Nat.mod_eq_zero_of_dvd hdvd
    have hhalf : 0 < 2 ^ (sh - 1) := by positivity
    have hpos : 0 < a := by
      rcases Nat.eq_zero_or_pos a with h0 | h0
      · subst h0; simp [bitLen, bitLenAux] at hlen
      · exact h0
    have hsign : ((a : Int)).sign = 1 := Int.sign_eq_one_of_pos (by exact_mod_cast hpos)
    simp only [hsh, hr, hhalf, if_true, hsign, one_mul, F64.trunc]
    have : ¬ (0 : Int) ≤ -(k : Int) + (sh : Int) := by omega
    simp only [this, if_false]
    have e1 : (-(-(k : Int) + (sh : Int))).toNat = k - sh := by omega
    rw [e1, Int.tdiv_eq_ediv (by positivity) (by positivity)]
    norm_cast
    rw [Nat.div_div_eq_div_mul, ← pow_add]
    congr 2
    omega

/-! ## The helpers in closed form -/

theorem be32_lt (s : ByteSlice) (i : Nat) : be32 s i < 4294967296 := by
  have h0 := (s.byte i).isLt
  have h1 := (s.byte (i + 1)).isLt
  have h2 := (s.byte (i + 2)).isLt
  have h3 := (s.byte (i + 3)).isLt
  simp only [be32]
  omega

theorem bigEndianUint16_window (t : ByteSlice) (lo : Nat) (h : lo + 2 ≤ t.cap) :
    bigEndianUint16 (t.window lo (lo + 2)) =
      .ok ((t.byte lo).val * 256 + (t.byte (lo + 1)).val) := by
  have hl : 2 ≤ (t.window lo (lo + 2)).len := by
    rw [t.window_len lo (lo + 2) h]; omega
  rw [bigEndianUint16_ok _ hl, t.window_byte lo (lo + 2) 0 (by omega),
    t.window_byte lo (lo + 2) 1 (by omega)]
  rfl

theorem bigEndianUint32_window (t : ByteSlice) (lo : Nat) (h : lo + 4 ≤ t.cap) :
    bigEndianUint32 (t.window lo (lo + 4)) = .ok (be32 t lo) := by
  have hl : 4 ≤ (t.window lo (lo + 4)).len := by
    rw [t.window_len lo (lo + 4) h]; omega
  rw [bigEndianUint32_ok _ hl, t.window_byte lo (lo + 4) 0 (by omega),
    t.window_byte lo (lo + 4) 1 (by omega), t.window_byte lo (lo + 4) 2 (by omega),
    t.window_byte lo (lo + 4) 3 (by omega)]
  rfl

theorem parseNtpShortFormat_ok (t : ByteSlice) (h : 4 ≤ t.cap) :
    parseNtpShortFormat t = .ok ⟨(be32 t 0 : Int), -16⟩ := by
  have e1 := bigEndianUint16_window t 0 (by omega)
  have e2 := bigEndianUint16_window t 2 (by omega)
  have h0 := (t.byte 0).isLt
  have h1 := (t.byte 1).isLt
  have h2 := (t.byte 2).isLt
  have h3 := (t.byte 3).isLt
  simp only [parseNtpShortFormat, t.slice_ok 0 2 (by omega) (by omega),
    t.slice_ok 2 4 (by omega) (by omega), bind, Except.bind, pure, Except.pure] at e1 e2 ⊢
  simp only [Nat.zero_add] at e1
  simp only [e1, e2]
  rw [F64.ofNat_exact _ (by omega), F64.ofNat_exact _ (by omega)]
  rw [F64.mul_exact _ _ (by simp [mathPow2]; omega)]
  simp only [F64.add, mathPow2, be32]
  rw [F64.round_exact _ _ (by simp; omega)]
  simp
  omega

theorem parseNtpTimestampFormat_ok (t : ByteSlice) (h : 8 ≤ t.cap) :
    parseNtpTimestampFormat t = .ok (timestampFloat t 0) := by
  have e1 := bigEndianUint32_window t 0 (by omega)
  have e2 := bigEndianUint32_window t 4 (by omega)
  have b1 := be32_lt t 0
  have b2 := be32_lt t 4
  simp only [parseNtpTimestampFormat, t.slice_ok 0 4 (by omega) (by omega),
    t.slice_ok 4 8 (by omega) (by omega), bind, Except.bind, pure, Except.pure] at e1 e2 ⊢
  simp only [Nat.zero_add] at e1
  simp only [e1, e2]
  rw [F64.ofNat_exact _ (by omega), F64.ofNat_exact _ (by omega)]
  rw [F64.mul_exact _ _ (by simp [mathPow2]; omega)]
  simp only [F64.add, mathPow2, timestampFloat]
  simp

theorem intOfFloat_fraction (rt : Runtime) (n : Nat) (h : n < 4294967296) :
    intOfFloat rt (F64.mul (F64.mul (F64.ofNat n) (mathPow2 (-32))) (F64.ofNat 1000000000)) =
      (nanoOfFraction n : Int) := by
  have inner : F64.mul ⟨(n : Int), 0⟩ (mathPow2 (-32)) = ⟨(n : Int), -32⟩ := by
    rw [F64.mul_exact _ _ (by simp [mathPow2]; omega)]
    simp [mathPow2]
  rw [F64.ofNat_exact _ (by omega), F64.ofNat_exact _ (by norm_num), inner]
  simp only [F64.mul, add_zero]
  have hd : 2 ^ 9 ∣ n * 1000000000 := ⟨n * 1953125, by ring⟩
  have hlt : n * 1000000000 < 2 ^ (53 + 9) := by norm_num; omega
  have key := F64.trunc_round_of_dvd (n * 1000000000) 32 hlt (by norm_num) hd
  have hv : n * 1000000000 / 2 ^ 32 = nanoOfFraction n := by
    simp only [nanoOfFraction]; norm_num
  rw [hv, Nat.cast_mul] at key
  have key' : (F64.round ((n : Int) * ((1000000000 : Nat) : Int)) (-32)).trunc =
      (nanoOfFraction n : Int) := key
  have hr : nanoOfFraction n < 1000000000 := by
    simp only [nanoOfFraction]; omega
  have : (-2 ^ 63 : Int) ≤ (nanoOfFraction n : Int) ∧ (nanoOfFraction n : Int) < 2 ^ 63 := by
    constructor <;> omega
  simp only [intOfFloat, key', this, and_self, if_true]

theorem parseNtpTimestampFormatSplit_ok (rt : Runtime) (t : ByteSlice) (h : 8 ≤ t.cap) :
    parseNtpTimestampFormatSplit rt t =
      .ok ((be32 t 0 : Int), (nanoOfFraction (be32 t 4) : Int)) := by
  have e1 := bigEndianUint32_window t 0 (by omega)
  have e2 := bigEndianUint32_window t 4 (by omega)
  simp only [parseNtpTimestampFormatSplit, t.slice_ok 0 4 (by omega) (by omega),
    t.slice_ok 4 8 (by omega) (by omega), bind, Except.bind, pure, Except.pure] at e1 e2 ⊢
  simp only [Nat.zero_add] at e1
  simp only [e1, e2, intOfFloat_fraction rt _ (be32_lt t 4)]

/-! ## The decoder in closed form -/

theorem be32_window (s : ByteSlice) (lo hi i : Nat) (h1 : lo ≤ hi) :
    be32 (s.window lo hi) i = be32 s (lo + i) := by
  simp only [be32, s.window_byte lo hi _ h1, Nat.add_assoc]

theorem timestampText_window (rt : Runtime) (s : ByteSlice) (lo hi : Nat) (h1 : lo ≤ hi) :
    timestampText rt (s.window lo hi) 0 = timestampText rt s lo := by
  simp only [timestampText, timestampFloat, be32_window s lo hi _ h1, Nat.add_zero, Nat.zero_add]

theorem ByteSlice.window_elems_four (s : ByteSlice) (lo : Nat) (h : lo + 4 ≤ s.cap) :
    (s.window lo (lo + 4)).elems = [s.byte lo, s.byte (lo + 1), s.byte (lo + 2), s.byte (lo + 3)] := by
  have hl : lo + 4 ≤ (s.elems ++ s.spare).length := by
    simpa [ByteSlice.cap] using h
  have hb : ∀ k, s.byte (lo + k) = ((s.elems ++ s.spare).drop lo).getD k 0 := by
    intro k
    simp only [ByteSlice.byte, List.getD_eq_getElem?_getD, List.getElem?_drop]
  have hb0 := hb 0
  rw [Nat.add_zero] at hb0
  rw [hb0, hb 1, hb 2, hb 3]
  simp only [ByteSlice.window, Nat.add_sub_cancel_left]
  have hd : 4 ≤ ((s.elems ++ s.spare).drop lo).length := by
    rw [List.length_drop]; omega
  generalize (s.elems ++ s.spare).drop lo = l at hd
  match l, hd with
  | a :: b :: c :: d :: rest, _ => simp

theorem parseNtpBytes_ok (rt : Runtime) (q : ByteSlice) (ipv4Disp msDisp : Bool)
    (h4 : 4 ≤ q.len) (h48 : 48 ≤ q.cap) :
    parseNtpBytes rt q ipv4Disp msDisp = .ok (decodedFields rt q ipv4Disp msDisp, none) := by
  have c1 := q.window_cap 4 8 (by omega) (by omega)
  have c2 := q.window_cap 8 12 (by omega) (by omega)
  have c3 := q.window_cap 16 24 (by omega) (by omega)
  have c4 := q.window_cap 24 32 (by omega) (by omega)
  have c5 := q.window_cap 32 40 (by omega) (by omega)
  have c6 := q.window_cap 40 48 (by omega) (by omega)
  simp only [parseNtpBytes, q.index_ok 0 (by omega), q.index_ok 1 (by omega),
    q.index_ok 2 (by omega), q.index_ok 3 (by omega),
    q.slice_ok 4 8 (by omega) (by omega), q.slice_ok 8 12 (by omega) (by omega),
    q.slice_ok 12 16 (by omega) (by omega), q.slice_ok 16 24 (by omega) (by omega),
    q.slice_ok 24 32 (by omega) (by omega), q.slice_ok 32 40 (by omega) (by omega),
    q.slice_ok 40 48 (by omega) (by omega),
    parseNtpShortFormat_ok (q.window 4 8) (by omega),
    parseNtpShortFormat_ok (q.window 8 12) (by omega),
    parseNtpTimestampFormatSplit_ok rt (q.window 16 24) (by omega),
    parseNtpTimestampFormat_ok (q.window 16 24) (by omega),
    parseNtpTimestampFormatSplit_ok rt (q.window 24 32) (by omega),
    parseNtpTimestampFormat_ok (q.window 24 32) (by omega),
    parseNtpTimestampFormatSplit_ok rt (q.window 32 40) (by omega),
    parseNtpTimestampFormat_ok (q.window 32 40) (by omega),
    parseNtpTimestampFormatSplit_ok rt (q.window 40 48) (by omega),
    parseNtpTimestampFormat_ok (q.window 40 48) (by omega),
    q.window_elems_four 12 (by omega),
    be32_window q 4 8 0 (by omega), be32_window q 8 12 0 (by omega),
    timestampText_window rt q 16 24 (by omega), timestampText_window rt q 24 32 (by omega),
    timestampText_window rt q 32 40 (by omega), timestampText_window rt q 40 48 (by omega),
    bind, Except.bind, pure, Except.pure, decodedFields, Nat.add_zero, leapIndicatorField,
    versionField, modeField, stratumField, pollField, precisionField, shortField,
    referenceIDField, timeUnitOf, scaledBy, timestampText, timestampFloat,
    be32_window q 16 24 _ (by omega), be32_window q 24 32 _ (by omega),
    be32_window q 32 40 _ (by omega), be32_window q 40 48 _ (by omega)]


/-! ## Bit fields of the first byte -/

set_option maxRecDepth 20000 in
theorem itoa_low_bits_eq_iff (v : Fin 32) :
    (itoa ((v.val : Nat) : Int) = itoa ((v.val &&& 7 : Nat) : Int)) ↔ v.val < 8 := by
  revert v
  decide

theorem itoa_shift_eq_iff (b : Byte) :
    (itoa ((b.val >>> 3 : Nat) : Int) = itoa (((b.val >>> 3) &&& 7 : Nat) : Int)) ↔
      b.val >>> 6 = 0 := by
  have hb := b.isLt
  have h3 : b.val >>> 3 < 32 := by
    rw [Nat.shiftRight_eq_div_pow]; omega
  have key := itoa_low_bits_eq_iff ⟨b.val >>> 3, h3⟩
  simp only at key
  rw [key, Nat.shiftRight_eq_div_pow, Nat.shiftRight_eq_div_pow]
  omega

/-- C1, as the code has it: for every reply of at least 48 bytes the version field
(element 1) is the decimal rendering of byte 0 shifted right by three bits, the two
leap-indicator bits included; it is the rendering of `(byte0 >> 3) & 7` exactly when the leap
indicator is 0. -/
theorem version_field_keeps_leap_bits (rt : Runtime) (q : ByteSlice) (ipv4Disp msDisp : Bool)
    (h : 48 ≤ q.len) :
    ∃ fields, parseNtpBytes rt q ipv4Disp msDisp = .ok (fields, none) ∧
      fields[1]? = some (itoa (((q.byte 0).val >>> 3 : Nat) : Int)) ∧
      (fields[1]? = some (itoa ((((q.byte 0).val >>> 3) &&& 7 : Nat) : Int)) ↔
        (q.byte 0).val >>> 6 = 0) := by
  have hc := q.len_le_cap
  refine ⟨_, parseNtpBytes_ok rt q ipv4Disp msDisp (by omega) (by omega), rfl, ?_⟩
  simp only [decodedFields, List.getElem?_cons_succ, List.getElem?_cons_zero, Option.some.injEq,
    versionField]
  exact itoa_shift_eq_iff (q.byte 0)

/-- C1 at byte 0 = `0xDB`: the version field reads "27", not "3". -/
theorem version_field_0xDB :
    48 ≤ replyDB.len ∧
    (∃ fields, parseNtpBytes amd64UTC replyDB false false = .ok (fields, none) ∧
      fields[1]? = some (itoa (((replyDB.byte 0).val >>> 3 : Nat) : Int)) ∧
      (fields[1]? = some (itoa ((((replyDB.byte 0).val >>> 3) &&& 7 : Nat) : Int)) ↔
        (replyDB.byte 0).val >>> 6 = 0)) ∧
    itoa (((replyDB.byte 0).val >>> 3 : Nat) : Int) = "27" ∧
    itoa ((((replyDB.byte 0).val >>> 3) &&& 7 : Nat) : Int) = "3" :=
  ⟨by decide, version_field_keeps_leap_bits amd64UTC replyDB false false (by decide),
    by decide, by decide⟩

/-! ## Stratum and poll interval -/

theorem itoa_natCast (n : Nat) : itoa ((n : Nat) : Int) = toString n := rfl

/-- C6: for every reply of at least 48 bytes the stratum field (element 3) is the decimal
byte 1 followed by a label in parentheses, and the label is chosen by range: 0, 1, 2..15,
16, 17..255; the five ranges cover every byte value. -/
theorem stratum_field_by_range (rt : Runtime) (q : ByteSlice) (ipv4Disp msDisp : Bool)
    (h : 48 ≤ q.len) :
    ∃ fields label, parseNtpBytes rt q ipv4Disp msDisp = .ok (fields, none) ∧
      fields[3]? = some (toString (q.byte 1).val ++ " (" ++ label ++ ")") ∧
      (label = "Unspecified or invalid" ↔ (q.byte 1).val = 0) ∧
      (label = "Primary Server" ↔ (q.byte 1).val = 1) ∧
      (label = "Secondary Server" ↔ 2 ≤ (q.byte 1).val ∧ (q.byte 1).val ≤ 15) ∧
      (label = "Unsynchronized" ↔ (q.byte 1).val = 16) ∧
      (label = "Reserved" ↔ 17 ≤ (q.byte 1).val ∧ (q.byte 1).val ≤ 255) ∧
      ((q.byte 1).val = 0 ∨ (q.byte 1).val = 1 ∨ (2 ≤ (q.byte 1).val ∧ (q.byte 1).val ≤ 15) ∨
        (q.byte 1).val = 16 ∨ (17 ≤ (q.byte 1).val ∧ (q.byte 1).val ≤ 255)) := by
  have hc := q.len_le_cap
  have hs := (q.byte 1).isLt
  have hp := parseNtpBytes_ok rt q ipv4Disp msDisp (by omega) (by omega)
  have hf : (decodedFields rt q ipv4Disp msDisp)[3]? = some
      (if (((q.byte 1).val : Nat) : Int) = 0 then desc ((q.byte 1).val : Nat) "Unspecified or invalid"
      else if (((q.byte 1).val : Nat) : Int) = 1 then desc ((q.byte 1).val : Nat) "Primary Server"
      else if (((q.byte 1).val : Nat) : Int) ≥ 2 ∧ (((q.byte 1).val : Nat) : Int) ≤ 15 then
        desc ((q.byte 1).val : Nat) "Secondary Server"
      else if (((q.byte 1).val : Nat) : Int) = 16 then desc ((q.byte 1).val : Nat) "Unsynchronized"
      else desc ((q.byte 1).val : Nat) "Reserved") := rfl
  generalize (q.byte 1).val = s at hs hf ⊢
  by_cases h0 : s = 0
  · refine ⟨_, "Unspecified or invalid", hp, ?_, ?_, ?_, ?_, ?_, ?_, ?_⟩
    · rw [hf]
      have e0 : (s : Int) = 0 := by omega
      simp only [e0, if_true, desc]
      rw [← e0, itoa_natCast]
    all_goals first
      | omega
      | (constructor <;> intro hx <;> first | rfl | omega | exact absurd hx (by decide))
  by_cases h1 : s = 1
  · refine ⟨_, "Primary Server", hp, ?_, ?_, ?_, ?_, ?_, ?_, ?_⟩
    · rw [hf]
      have e0 : ¬ ((s : Int) = 0) := by omega
      have e1 : (s : Int) = 1 := by omega
      simp only [e0, if_false, desc]
      simp only [e1, if_true]
      rw [← e1, itoa_natCast]
    all_goals first
      | omega
      | (constructor <;> intro hx <;> first | rfl | omega | exact absurd hx (by decide))
  by_cases h2 : 2 ≤ s ∧ s ≤ 15
  · refine ⟨_, "Secondary Server", hp, ?_, ?_, ?_, ?_, ?_, ?_, ?_⟩
    · rw [hf]
      have e0 : ¬ ((s : Int) = 0) := by omega
      have e1 : ¬ ((s : Int) = 1) := by omega
      have e2 : (s : Int) ≥ 2 ∧ (s : Int) ≤ 15 := by omega
      simp only [e0, e1, e2, if_false, if_true, and_self, desc, itoa_natCast]
    all_goals first
      | omega
      | (constructor <;> intro hx <;> first | rfl | omega | exact absurd hx (by decide))
  by_cases h3 : s = 16
  · refine ⟨_, "Unsynchronized", hp, ?_, ?_, ?_, ?_, ?_, ?_, ?_⟩
    · rw [hf]
      have e0 : ¬ ((s : Int) = 0) := by omega
      have e1 : ¬ ((s : Int) = 1) := by omega
      have e2 : ¬ ((s : Int) ≥ 2 ∧ (s : Int) ≤ 15) := by omega
      have e3 : (s : Int) = 16 := by omega
      simp only [e0, e1, e2, if_false, desc]
      simp only [e3, if_true]
      rw [← e3, itoa_natCast]
    all_goals first
      | omega
      | (constructor <;> intro hx <;> first | rfl | omega | exact absurd hx (by decide))
  · refine ⟨_, "Reserved", hp, ?_, ?_, ?_, ?_, ?_, ?_, ?_⟩
    · rw [hf]
      have e0 : ¬ ((s : Int) = 0) := by omega
      have e1 : ¬ ((s : Int) = 1) := by omega
      have e2 : ¬ ((s : Int) ≥ 2 ∧ (s : Int) ≤ 15) := by omega
      have e3 : ¬ ((s : Int) = 16) := by omega
      simp only [e0, e1, e2, e3, if_false, desc, itoa_natCast]
    all_goals first
      | omega
      | (constructor <;> intro hx <;> first | rfl | omega | exact absurd hx (by decide))

/-- C6 on a stratum-2 reply: the label is "Secondary Server" there. -/
theorem stratum_field_of_replyPoll63 :
    48 ≤ replyPoll63.len ∧
    ∃ fields label, parseNtpBytes amd64UTC replyPoll63 true false = .ok (fields, none) ∧
      fields[3]? = some (toString (replyPoll63.byte 1).val ++ " (" ++ label ++ ")") ∧
      (label = "Unspecified or invalid" ↔ (replyPoll63.byte 1).val = 0) ∧
      (label = "Primary Server" ↔ (replyPoll63.byte 1).val = 1) ∧
      (label = "Secondary Server" ↔
        2 ≤ (replyPoll63.byte 1).val ∧ (replyPoll63.byte 1).val ≤ 15) ∧
      (label = "Unsynchronized" ↔ (replyPoll63.byte 1).val = 16) ∧
      (label = "Reserved" ↔ 17 ≤ (replyPoll63.byte 1).val ∧ (replyPoll63.byte 1).val ≤ 255) ∧
      ((replyPoll63.byte 1).val = 0 ∨ (replyPoll63.byte 1).val = 1 ∨
        (2 ≤ (replyPoll63.byte 1).val ∧ (replyPoll63.byte 1).val ≤ 15) ∨
        (replyPoll63.byte 1).val = 16 ∨
        (17 ≤ (replyPoll63.byte 1).val ∧ (replyPoll63.byte 1).val ≤ 255)) :=
  ⟨by decide, stratum_field_by_range amd64UTC replyPoll63 true false (by decide)⟩

theorem wrap64_range (z : Int) : -2 ^ 63 ≤ wrap64 z ∧ wrap64 z < 2 ^ 63 := by
  simp only [wrap64]
  omega

theorem trunc_mathPow2 (b : Nat) : (mathPow2 (b : Int)).trunc = 2 ^ b := by
  simp [F64.trunc, mathPow2]

/-- C4, as the code has it: for every reply of at least 48 bytes the poll field (element 4)
is the decimal `2 ^ b` followed by " seconds" when byte 2 is `b ≤ 62`; from `b = 63` on,
`2 ^ b` does not fit the machine integer and the field shows some 64-bit integer, which is
never `2 ^ b`. -/
theorem poll_field_overflows (rt : Runtime) (q : ByteSlice) (ipv4Disp msDisp : Bool)
    (h : 48 ≤ q.len) :
    ∃ fields, parseNtpBytes rt q ipv4Disp msDisp = .ok (fields, none) ∧
      ((q.byte 2).val ≤ 62 →
        fields[4]? = some (toString (2 ^ (q.byte 2).val) ++ " seconds")) ∧
      (63 ≤ (q.byte 2).val →
        ∃ v : Int, -2 ^ 63 ≤ v ∧ v < 2 ^ 63 ∧ v ≠ 2 ^ (q.byte 2).val ∧
          fields[4]? = some (itoa v ++ " seconds")) := by
  have hc := q.len_le_cap
  refine ⟨_, parseNtpBytes_ok rt q ipv4Disp msDisp (by omega) (by omega), ?_, ?_⟩
  · intro hb
    have hpow : (2 : Int) ^ (q.byte 2).val < 2 ^ 63 :=
      pow_lt_pow_right₀ (by norm_num) (by omega)
    have hneg : (-2 ^ 63 : Int) ≤ 2 ^ (q.byte 2).val := by
      have : (0 : Int) ≤ 2 ^ (q.byte 2).val := by positivity
      omega
    have hi : intOfFloat rt (mathPow2 (((q.byte 2).val : Nat) : Int)) =
        (((2 ^ (q.byte 2).val : Nat)) : Int) := by
      simp only [intOfFloat, trunc_mathPow2, hpow, hneg, and_self, if_true]
      push_cast
      rfl
    simp only [decodedFields, List.getElem?_cons_succ, List.getElem?_cons_zero, pollField, hi,
      itoa_natCast]
  · intro hb
    have hpow : (2 : Int) ^ 63 ≤ 2 ^ (q.byte 2).val :=
      pow_le_pow_right₀ (by norm_num) hb
    have hr := wrap64_range (rt.intOverflow (mathPow2 (((q.byte 2).val : Nat) : Int)).toRat)
    refine ⟨wrap64 (rt.intOverflow (mathPow2 (((q.byte 2).val : Nat) : Int)).toRat), hr.1, hr.2,
      by omega, ?_⟩
    have hi : intOfFloat rt (mathPow2 (((q.byte 2).val : Nat) : Int)) =
        wrap64 (rt.intOverflow (mathPow2 (((q.byte 2).val : Nat) : Int)).toRat) := by
      have : ¬ ((2 : Int) ^ (q.byte 2).val < 2 ^ 63) := by omega
      simp only [intOfFloat, trunc_mathPow2, this, and_false, if_false]
    simp only [decodedFields, List.getElem?_cons_succ, List.getElem?_cons_zero, pollField, hi]

/-- C4 at poll byte 63 on a 64-bit x86 machine: the field reads
"-9223372036854775808 seconds". -/
theorem poll_field_of_byte_63 :
    48 ≤ replyPoll63.len ∧
    (∃ fields, parseNtpBytes amd64UTC replyPoll63 true false = .ok (fields, none) ∧
      ((replyPoll63.byte 2).val ≤ 62 →
        fields[4]? = some (toString (2 ^ (replyPoll63.byte 2).val) ++ " seconds")) ∧
      (63 ≤ (replyPoll63.byte 2).val →
        ∃ v : Int, -2 ^ 63 ≤ v ∧ v < 2 ^ 63 ∧ v ≠ 2 ^ (replyPoll63.byte 2).val ∧
          fields[4]? = some (itoa v ++ " seconds"))) ∧
    (replyPoll63.byte 2).val = 63 ∧
    (decodedFields amd64UTC replyPoll63 true false)[4]? =
      some "-9223372036854775808 seconds" ∧
    toString (2 ^ (replyPoll63.byte 2).val) ++ " seconds" = "9223372036854775808 seconds" :=
  ⟨by decide, poll_field_overflows amd64UTC replyPoll63 true false (by decide), by decide,
    by decide, by decide⟩

/-! ## Reference identifier -/

theorem hexDigit_eq (d : Fin 16) : hexDigit d.val = upperHexDigits.getD d.val '0' := by
  revert d
  decide

theorem sprintf02X_eq_hexPair (b : Byte) : sprintf02X b = hexPair b := by
  have hb := b.isLt
  have h1 := hexDigit_eq ⟨b.val / 16, by omega⟩
  have h2 := hexDigit_eq ⟨b.val % 16, by omega⟩
  simp only at h1 h2
  simp only [sprintf02X, hexPair, h1, h2]

theorem hexPair_length (b : Byte) : (hexPair b).length = 2 := rfl

theorem foldl_stringOfByte (l : List Byte) (acc : String) :
    l.foldl (fun acc b => if (b.val : Int) ≠ 0 then acc ++ stringOfByte b else acc) acc =
      acc ++ String.mk ((l.filter (fun b => b.val ≠ 0)).map (fun b => Char.ofNat b.val)) := by
  induction l generalizing acc with
  | nil => exact (String.append_empty acc).symm
  | cons x xs ih =>
    simp only [List.foldl_cons]
    rw [ih]
    by_cases hx : x.val = 0
    · have : ¬ ((x.val : Int) ≠ 0) := by omega
      rw [if_neg this]
      simp [hx]
    · have : (x.val : Int) ≠ 0 := by omega
      rw [if_pos this]
      apply String.ext
      simp [hx, stringOfByte, String.singleton]

theorem referenceID_field (rt : Runtime) (q : ByteSlice) (ipv4Disp msDisp : Bool) :
    (decodedFields rt q ipv4Disp msDisp)[8]? =
      some (referenceIDSpec (q.byte 1) (q.byte 12) (q.byte 13) (q.byte 14) (q.byte 15)
        ipv4Disp) := by
  simp only [decodedFields, List.getElem?_cons_succ, List.getElem?_cons_zero, referenceIDSpec,
    Option.some.injEq, referenceIDField]
  by_cases hs : (q.byte 1).val = 1
  · have : (((q.byte 1).val : Nat) : Int) = 1 := by omega
    simp only [this, if_true]
    simp only [hs, if_true]
    rw [foldl_stringOfByte, String.empty_append]
  · have : ¬ ((((q.byte 1).val : Nat) : Int) = 1) := by omega
    simp only [this, if_false]
    simp only [hs, if_false, List.foldl_cons, List.foldl_nil, String.empty_append,
      List.nil_append, List.cons_append, String.intercalate, String.intercalate.go,
      sprintf02X_eq_hexPair, itoa_natCast]
    cases ipv4Disp
    · simp only [Bool.false_eq_true, if_false, String.append_empty]
    · simp only [if_true, String.append_assoc]

/-- C5: for every reply of at least 48 bytes the reference-ID field (element 8) is the text
the specification describes: at stratum 1 the non-zero bytes among bytes 12 to 15, one
character each, whatever the option; otherwise the eight hexadecimal digits of the four
bytes, followed by the dotted-decimal form exactly when the option is on. -/
theorem reference_id_field (rt : Runtime) (q : ByteSlice) (msDisp : Bool) (h : 48 ≤ q.len) :
    ∃ plain dotted, parseNtpBytes rt q false msDisp = .ok (plain, none) ∧
      parseNtpBytes rt q true msDisp = .ok (dotted, none) ∧
      plain[8]? = some (referenceIDSpec (q.byte 1) (q.byte 12) (q.byte 13) (q.byte 14) (q.byte 15)
        false) ∧
      dotted[8]? = some (referenceIDSpec (q.byte 1) (q.byte 12) (q.byte 13) (q.byte 14) (q.byte 15)
        true) ∧
      ((q.byte 1).val = 1 → dotted[8]? = plain[8]?) ∧
      ((q.byte 1).val ≠ 1 → ∃ hex : String, hex.length = 8 ∧
        hex = hexPair (q.byte 12) ++ hexPair (q.byte 13) ++ hexPair (q.byte 14) ++
          hexPair (q.byte 15) ∧
        plain[8]? = some hex ∧
        dotted[8]? = some (hex ++ " (IPv4 form: " ++ toString (q.byte 12).val ++ "." ++
          toString (q.byte 13).val ++ "." ++ toString (q.byte 14).val ++ "." ++
          toString (q.byte 15).val ++ ")")) := by
  have hc := q.len_le_cap
  refine ⟨_, _, parseNtpBytes_ok rt q false msDisp (by omega) (by omega),
    parseNtpBytes_ok rt q true msDisp (by omega) (by omega), referenceID_field rt q false msDisp,
    referenceID_field rt q true msDisp, ?_, ?_⟩
  · intro hs
    rw [referenceID_field, referenceID_field]
    simp [referenceIDSpec, hs]
  · intro hs
    refine ⟨_, ?_, rfl, ?_, ?_⟩
    · simp [String.length_append, hexPair_length]
    · rw [referenceID_field]
      simp [referenceIDSpec, hs]
    · rw [referenceID_field]
      simp [referenceIDSpec, hs, String.append_assoc]

/-- C5 on the two examples of the specification: `GPS\0` at stratum 1 gives "GPS", and
1.2.3.4 at stratum 2 with the option on gives "01020304 (IPv4 form: 1.2.3.4)". -/
theorem reference_id_examples :
    48 ≤ replyGPS.len ∧
    (∃ plain dotted, parseNtpBytes amd64UTC replyGPS false false = .ok (plain, none) ∧
      parseNtpBytes amd64UTC replyGPS true false = .ok (dotted, none) ∧
      plain[8]? = some (referenceIDSpec (replyGPS.byte 1) (replyGPS.byte 12) (replyGPS.byte 13)
        (replyGPS.byte 14) (replyGPS.byte 15) false) ∧
      dotted[8]? = some (referenceIDSpec (replyGPS.byte 1) (replyGPS.byte 12) (replyGPS.byte 13)
        (replyGPS.byte 14) (replyGPS.byte 15) true) ∧
      ((replyGPS.byte 1).val = 1 → dotted[8]? = plain[8]?) ∧
      ((replyGPS.byte 1).val ≠ 1 → ∃ hex : String, hex.length = 8 ∧
        hex = hexPair (replyGPS.byte 12) ++ hexPair (replyGPS.byte 13) ++
          hexPair (replyGPS.byte 14) ++ hexPair (replyGPS.byte 15) ∧
        plain[8]? = some hex ∧
        dotted[8]? = some (hex ++ " (IPv4 form: " ++ toString (replyGPS.byte 12).val ++ "." ++
          toString (replyGPS.byte 13).val ++ "." ++ toString (replyGPS.byte 14).val ++ "." ++
          toString (replyGPS.byte 15).val ++ ")"))) ∧
    (decodedFields amd64UTC replyGPS true false)[8]? = some "GPS" ∧
    (decodedFields amd64UTC replyPoll63 true false)[8]? = some "01020304 (IPv4 form: 1.2.3.4)" ∧
    (decodedFields amd64UTC replyPoll63 false false)[8]? = some "01020304" :=
  ⟨by decide, reference_id_field amd64UTC replyGPS false (by decide), by decide, by decide,
    by decide⟩

/-! ## The millisecond option -/

theorem ms_ne_seconds (x y : String) : x ++ " ms" ≠ y ++ " seconds" := by
  intro h
  have := congrArg (fun s => s.data.reverse) h
  simp at this

theorem toRat_mathPow2 (e : Int) : (mathPow2 e).toRat = (2 : ℚ) ^ e := by
  simp [F64.toRat, mathPow2]

theorem toRat_mathPow2_ms (e : Int) :
    (F64.mul (mathPow2 e) (F64.ofNat 1000)).toRat = 1000 * (2 : ℚ) ^ e := by
  rw [F64.ofNat_exact _ (by norm_num), F64.mul_exact _ _ (by simp [mathPow2])]
  simp [F64.toRat, mathPow2]

theorem toRat_short (v : Nat) : F64.toRat ⟨(v : Int), -16⟩ = (v : ℚ) / 2 ^ 16 := by
  simp only [F64.toRat, zpow_neg, div_eq_mul_inv]
  norm_cast

theorem toRat_short_ms (v : Nat) (h : v < 4294967296) :
    (F64.mul ⟨(v : Int), -16⟩ (F64.ofNat 1000)).toRat = 1000 * ((v : ℚ) / 2 ^ 16) := by
  rw [F64.ofNat_exact _ (by norm_num), F64.mul_exact _ _ (by simp; omega)]
  simp only [F64.toRat, zpow_neg, div_eq_mul_inv, add_zero]
  push_cast
  ring_nf

/-- C7: for every reply of at least 48 bytes and either setting of the dotted-decimal option,
turning the millisecond option on changes the fields 5, 6 and 7 and no other: precision, root
delay and root dispersion then render exactly 1000 times the value (`2 ^ e` for the signed
byte 3, the 32-bit value of bytes 4-7 and 8-11 over `2 ^ 16`) with " ms" in place of
" seconds"; the other ten fields, the poll interval among them, are the same strings. -/
theorem millisecond_option_scales_three_fields (rt : Runtime) (q : ByteSlice) (ipv4Disp : Bool)
    (h : 48 ≤ q.len) :
    ∃ sec ms, parseNtpBytes rt q ipv4Disp false = .ok (sec, none) ∧
      parseNtpBytes rt q ipv4Disp true = .ok (ms, none) ∧
      sec.length = 13 ∧ ms.length = 13 ∧
      (∀ i, i ≠ 5 → i ≠ 6 → i ≠ 7 → ms[i]? = sec[i]?) ∧
      sec[5]? = some (rt.formatFloat ((2 : ℚ) ^ int8 (q.byte 3)) ++ " seconds") ∧
      ms[5]? = some (rt.formatFloat (1000 * (2 : ℚ) ^ int8 (q.byte 3)) ++ " ms") ∧
      sec[6]? = some (rt.formatFloat ((be32 q 4 : ℚ) / 2 ^ 16) ++ " seconds") ∧
      ms[6]? = some (rt.formatFloat (1000 * ((be32 q 4 : ℚ) / 2 ^ 16)) ++ " ms") ∧
      sec[7]? = some (rt.formatFloat ((be32 q 8 : ℚ) / 2 ^ 16) ++ " seconds") ∧
      ms[7]? = some (rt.formatFloat (1000 * ((be32 q 8 : ℚ) / 2 ^ 16)) ++ " ms") ∧
      ms[5]? ≠ sec[5]? ∧ ms[6]? ≠ sec[6]? ∧ ms[7]? ≠ sec[7]? := by
  have hc := q.len_le_cap
  have e5s : (decodedFields rt q ipv4Disp false)[5]? =
      some (rt.formatFloat ((2 : ℚ) ^ int8 (q.byte 3)) ++ " seconds") := by
    simp only [decodedFields, List.getElem?_cons_succ, List.getElem?_cons_zero, precisionField,
      scaledBy, timeUnitOf, Bool.false_eq_true, if_false, toRat_mathPow2]
  have e5m : (decodedFields rt q ipv4Disp true)[5]? =
      some (rt.formatFloat (1000 * (2 : ℚ) ^ int8 (q.byte 3)) ++ " ms") := by
    simp only [decodedFields, List.getElem?_cons_succ, List.getElem?_cons_zero, precisionField,
      scaledBy, timeUnitOf, if_true, toRat_mathPow2_ms]
  have e6s : (decodedFields rt q ipv4Disp false)[6]? =
      some (rt.formatFloat ((be32 q 4 : ℚ) / 2 ^ 16) ++ " seconds") := by
    simp only [decodedFields, List.getElem?_cons_succ, List.getElem?_cons_zero, shortField,
      scaledBy, timeUnitOf, Bool.false_eq_true, if_false, toRat_short]
  have e6m : (decodedFields rt q ipv4Disp true)[6]? =
      some (rt.formatFloat (1000 * ((be32 q 4 : ℚ) / 2 ^ 16)) ++ " ms") := by
    simp only [decodedFields, List.getElem?_cons_succ, List.getElem?_cons_zero, shortField,
      scaledBy, timeUnitOf, if_true, toRat_short_ms _ (be32_lt q 4)]
  have e7s : (decodedFields rt q ipv4Disp false)[7]? =
      some (rt.formatFloat ((be32 q 8 : ℚ) / 2 ^ 16) ++ " seconds") := by
    simp only [decodedFields, List.getElem?_cons_succ, List.getElem?_cons_zero, shortField,
      scaledBy, timeUnitOf, Bool.false_eq_true, if_false, toRat_short]
  have e7m : (decodedFields rt q ipv4Disp true)[7]? =
      some (rt.formatFloat (1000 * ((be32 q 8 : ℚ) / 2 ^ 16)) ++ " ms") := by
    simp only [decodedFields, List.getElem?_cons_succ, List.getElem?_cons_zero, shortField,
      scaledBy, timeUnitOf, if_true, toRat_short_ms _ (be32_lt q 8)]
  refine ⟨_, _, parseNtpBytes_ok rt q ipv4Disp false (by omega) (by omega),
    parseNtpBytes_ok rt q ipv4Disp true (by omega) (by omega), rfl, rfl, ?_, e5s, e5m, e6s, e6m,
    e7s, e7m, ?_, ?_, ?_⟩
  · intro i h5 h6 h7
    simp only [decodedFields]
    rcases i with _ | _ | _ | _ | _ | _ | _ | _ | _ | _ | _ | _ | _ | i
    all_goals first
      | exact absurd rfl h5
      | exact absurd rfl h6
      | exact absurd rfl h7
      | simp only [List.getElem?_cons_succ, List.getElem?_cons_zero, List.getElem?_nil]
  · rw [e5s, e5m]
    intro hx
    exact ms_ne_seconds _ _ (Option.some.inj hx)
  · rw [e6s, e6m]
    intro hx
    exact ms_ne_seconds _ _ (Option.some.inj hx)
  · rw [e7s, e7m]
    intro hx
    exact ms_ne_seconds _ _ (Option.some.inj hx)

/-- C7 on a reply with precision byte `0xEC` (-20), root delay 1.5 s and root dispersion
`2 ^ (-16)` s. -/
theorem millisecond_option_on_replyPoll63 :
    48 ≤ replyPoll63.len ∧
    ∃ sec ms, parseNtpBytes amd64UTC replyPoll63 true false = .ok (sec, none) ∧
      parseNtpBytes amd64UTC replyPoll63 true true = .ok (ms, none) ∧
      sec.length = 13 ∧ ms.length = 13 ∧
      (∀ i, i ≠ 5 → i ≠ 6 → i ≠ 7 → ms[i]? = sec[i]?) ∧
      sec[5]? = some (amd64UTC.formatFloat ((2 : ℚ) ^ int8 (replyPoll63.byte 3)) ++ " seconds") ∧
      ms[5]? = some (amd64UTC.formatFloat (1000 * (2 : ℚ) ^ int8 (replyPoll63.byte 3)) ++ " ms") ∧
      sec[6]? = some (amd64UTC.formatFloat ((be32 replyPoll63 4 : ℚ) / 2 ^ 16) ++ " seconds") ∧
      ms[6]? = some (amd64UTC.formatFloat (1000 * ((be32 replyPoll63 4 : ℚ) / 2 ^ 16)) ++ " ms") ∧
      sec[7]? = some (amd64UTC.formatFloat ((be32 replyPoll63 8 : ℚ) / 2 ^ 16) ++ " seconds") ∧
      ms[7]? = some (amd64UTC.formatFloat (1000 * ((be32 replyPoll63 8 : ℚ) / 2 ^ 16)) ++ " ms") ∧
      ms[5]? ≠ sec[5]? ∧ ms[6]? ≠ sec[6]? ∧ ms[7]? ≠ sec[7]? :=
  ⟨by decide, millisecond_option_scales_three_fields amd64UTC replyPoll63 true (by decide)⟩

/-! ## Buffers shorter than 48 bytes -/

theorem parseNtpBytes_index_panic (rt : Runtime) (q : ByteSlice) (ipv4Disp msDisp : Bool)
    (h : q.len < 4) : parseNtpBytes rt q ipv4Disp msDisp = .error .indexOutOfRange := by
  have hl : q.len = 0 ∨ q.len = 1 ∨ q.len = 2 ∨ q.len = 3 := by omega
  rcases hl with h0 | h1 | h2 | h3
  · simp only [parseNtpBytes, q.index_panic 0 (by omega), bind, Except.bind]
  · simp only [parseNtpBytes, q.index_ok 0 (by omega), q.index_panic 1 (by omega), bind,
      Except.bind]
  · simp only [parseNtpBytes, q.index_ok 0 (by omega), q.index_ok 1 (by omega),
      q.index_panic 2 (by omega), bind, Except.bind]
  · simp only [parseNtpBytes, q.index_ok 0 (by omega), q.index_ok 1 (by omega),
      q.index_ok 2 (by omega), q.index_panic 3 (by omega), bind, Except.bind]

theorem parseNtpBytes_slice_panic (rt : Runtime) (q : ByteSlice) (ipv4Disp msDisp : Bool)
    (h4 : 4 ≤ q.len) (h : q.cap < 48) :
    parseNtpBytes rt q ipv4Disp msDisp = .error .sliceBoundsOutOfRange := by
  have hl : q.cap < 8 ∨ (8 ≤ q.cap ∧ q.cap < 12) ∨ (12 ≤ q.cap ∧ q.cap < 16) ∨
      (16 ≤ q.cap ∧ q.cap < 24) ∨ (24 ≤ q.cap ∧ q.cap < 32) ∨ (32 ≤ q.cap ∧ q.cap < 40) ∨
      (40 ≤ q.cap ∧ q.cap < 48) := by omega
  rcases hl with c | c | c | c | c | c | c
  · simp only [parseNtpBytes, q.index_ok 0 (by omega), q.index_ok 1 (by omega),
      q.index_ok 2 (by omega), q.index_ok 3 (by omega), q.slice_panic 4 8 (by omega), bind,
      Except.bind]
  · have c1 := q.window_cap 4 8 (by omega) (by omega)
    simp only [parseNtpBytes, q.index_ok 0 (by omega), q.index_ok 1 (by omega),
      q.index_ok 2 (by omega), q.index_ok 3 (by omega), q.slice_ok 4 8 (by omega) (by omega),
      parseNtpShortFormat_ok (q.window 4 8) (by omega), q.slice_panic 8 12 (by omega), bind,
      Except.bind]
  · have c1 := q.window_cap 4 8 (by omega) (by omega)
    have c2 := q.window_cap 8 12 (by omega) (by omega)
    simp only [parseNtpBytes, q.index_ok 0 (by omega), q.index_ok 1 (by omega),
      q.index_ok 2 (by omega), q.index_ok 3 (by omega), q.slice_ok 4 8 (by omega) (by omega),
      parseNtpShortFormat_ok (q.window 4 8) (by omega), q.slice_ok 8 12 (by omega) (by omega),
      parseNtpShortFormat_ok (q.window 8 12) (by omega), q.slice_panic 12 16 (by omega), bind,
      Except.bind]
  · have c1 := q.window_cap 4 8 (by omega) (by omega)
    have c2 := q.window_cap 8 12 (by omega) (by omega)
    simp only [parseNtpBytes, q.index_ok 0 (by omega), q.index_ok 1 (by omega),
      q.index_ok 2 (by omega), q.index_ok 3 (by omega), q.slice_ok 4 8 (by omega) (by omega),
      parseNtpShortFormat_ok (q.window 4 8) (by omega), q.slice_ok 8 12 (by omega) (by omega),
      parseNtpShortFormat_ok (q.window 8 12) (by omega), q.slice_ok 12 16 (by omega) (by omega),
      q.slice_panic 16 24 (by omega), bind, Except.bind]
  · have c1 := q.window_cap 4 8 (by omega) (by omega)
    have c2 := q.window_cap 8 12 (by omega) (by omega)
    have c3 := q.window_cap 16 24 (by omega) (by omega)
    simp only [parseNtpBytes, q.index_ok 0 (by omega), q.index_ok 1 (by omega),
      q.index_ok 2 (by omega), q.index_ok 3 (by omega), q.slice_ok 4 8 (by omega) (by omega),
      parseNtpShortFormat_ok (q.window 4 8) (by omega), q.slice_ok 8 12 (by omega) (by omega),
      parseNtpShortFormat_ok (q.window 8 12) (by omega), q.slice_ok 12 16 (by omega) (by omega),
      q.slice_ok 16 24 (by omega) (by omega), parseNtpTimestampFormatSplit_ok rt (q.window 16 24) (by omega),
    parseNtpTimestampFormat_ok (q.window 16 24) (by omega),
      q.slice_panic 24 32 (by omega), bind, Except.bind]
  · have c1 := q.window_cap 4 8 (by omega) (by omega)
    have c2 := q.window_cap 8 12 (by omega) (by omega)
    have c3 := q.window_cap 16 24 (by omega) (by omega)
    have c4 := q.window_cap 24 32 (by omega) (by omega)
    simp only [parseNtpBytes, q.index_ok 0 (by omega), q.index_ok 1 (by omega),
      q.index_ok 2 (by omega), q.index_ok 3 (by omega), q.slice_ok 4 8 (by omega) (by omega),
      parseNtpShortFormat_ok (q.window 4 8) (by omega), q.slice_ok 8 12 (by omega) (by omega),
      parseNtpShortFormat_ok (q.window 8 12) (by omega), q.slice_ok 12 16 (by omega) (by omega),
      q.slice_ok 16 24 (by omega) (by omega), parseNtpTimestampFormatSplit_ok rt (q.window 16 24) (by omega),
    parseNtpTimestampFormat_ok (q.window 16 24) (by omega),
      q.slice_ok 24 32 (by omega) (by omega), parseNtpTimestampFormatSplit_ok rt (q.window 24 32) (by omega),
    parseNtpTimestampFormat_ok (q.window 24 32) (by omega),
      q.slice_panic 32 40 (by omega), bind, Except.bind]
  · have c1 := q.window_cap 4 8 (by omega) (by omega)
    have c2 := q.window_cap 8 12 (by omega) (by omega)
    have c3 := q.window_cap 16 24 (by omega) (by omega)
    have c4 := q.window_cap 24 32 (by omega) (by omega)
    have c5 := q.window_cap 32 40 (by omega) (by omega)
    simp only [parseNtpBytes, q.index_ok 0 (by omega), q.index_ok 1 (by omega),
      q.index_ok 2 (by omega), q.index_ok 3 (by omega), q.slice_ok 4 8 (by omega) (by omega),
      parseNtpShortFormat_ok (q.window 4 8) (by omega), q.slice_ok 8 12 (by omega) (by omega),
      parseNtpShortFormat_ok (q.window 8 12) (by omega), q.slice_ok 12 16 (by omega) (by omega),
      q.slice_ok 16 24 (by omega) (by omega), parseNtpTimestampFormatSplit_ok rt (q.window 16 24) (by omega),
    parseNtpTimestampFormat_ok (q.window 16 24) (by omega),
      q.slice_ok 24 32 (by omega) (by omega), parseNtpTimestampFormatSplit_ok rt (q.window 24 32) (by omega),
    parseNtpTimestampFormat_ok (q.window 24 32) (by omega),
      q.slice_ok 32 40 (by omega) (by omega), parseNtpTimestampFormatSplit_ok rt (q.window 32 40) (by omega),
    parseNtpTimestampFormat_ok (q.window 32 40) (by omega),
      q.slice_panic 40 48 (by omega), bind, Except.bind]

/-- C2, as the code has it: for every buffer shorter than 48 bytes `parseNtpBytes` returns no
decode error. It faults with an index-out-of-range panic when the length is below 4 and with
a slice-bounds panic when the length is at least 4 and the capacity below 48; when the
length is at least 4 and the backing array holds 48 bytes it returns the thirteen fields
with a nil error, read from the backing array past the length. Its error result is nil
whenever it returns. -/
theorem short_buffer_faults (rt : Runtime) (q : ByteSlice) (ipv4Disp msDisp : Bool)
    (h : q.len < 48) :
    (q.len < 4 → parseNtpBytes rt q ipv4Disp msDisp = .error .indexOutOfRange) ∧
    (4 ≤ q.len → q.cap < 48 →
      parseNtpBytes rt q ipv4Disp msDisp = .error .sliceBoundsOutOfRange) ∧
    (4 ≤ q.len → 48 ≤ q.cap →
      parseNtpBytes rt q ipv4Disp msDisp = .ok (decodedFields rt q ipv4Disp msDisp, none)) ∧
    (∀ fields e, parseNtpBytes rt q ipv4Disp msDisp ≠ .ok (fields, some e)) := by
  refine ⟨parseNtpBytes_index_panic rt q ipv4Disp msDisp,
    parseNtpBytes_slice_panic rt q ipv4Disp msDisp,
    parseNtpBytes_ok rt q ipv4Disp msDisp, ?_⟩
  intro fields e he
  by_cases h4 : q.len < 4
  · rw [parseNtpBytes_index_panic rt q ipv4Disp msDisp h4] at he
    cases he
  by_cases h48 : q.cap < 48
  · rw [parseNtpBytes_slice_panic rt q ipv4Disp msDisp (by omega) h48] at he
    cases he
  · rw [parseNtpBytes_ok rt q ipv4Disp msDisp (by omega) (by omega)] at he
    cases he

/-- C2, as the code has it, on the empty buffer. -/
theorem short_buffer_faults_on_empty :
    emptyBuffer.len < 48 ∧
    ((emptyBuffer.len < 4 →
      parseNtpBytes amd64UTC emptyBuffer false false = .error .indexOutOfRange) ∧
    (4 ≤ emptyBuffer.len → emptyBuffer.cap < 48 →
      parseNtpBytes amd64UTC emptyBuffer false false = .error .sliceBoundsOutOfRange) ∧
    (4 ≤ emptyBuffer.len → 48 ≤ emptyBuffer.cap →
      parseNtpBytes amd64UTC emptyBuffer false false =
        .ok (decodedFields amd64UTC emptyBuffer false false, none)) ∧
    (∀ fields e, parseNtpBytes amd64UTC emptyBuffer false false ≠ .ok (fields, some e))) :=
  ⟨by decide, short_buffer_faults amd64UTC emptyBuffer false false (by decide)⟩

/-- C2 refuted on the empty buffer: `parseNtpBytes` faults on the access `ntpQuery[0]` and
returns neither fields nor an error value; on four bytes backed by a 48-byte array it returns
fields with a nil error. -/
theorem empty_buffer_panics :
    parseNtpBytes amd64UTC emptyBuffer false false = .error .indexOutOfRange ∧
    shortBufferLongArray.len = 4 ∧
    parseNtpBytes amd64UTC shortBufferLongArray false false =
      .ok (decodedFields amd64UTC shortBufferLongArray false false, none) :=
  ⟨rfl, rfl, parseNtpBytes_ok amd64UTC shortBufferLongArray false false (by decide) (by decide)⟩

/-! ## The split timestamp -/

theorem nanoOfFraction_eq_floor (n : Nat) :
    (nanoOfFraction n : Int) = ⌊(n : ℚ) / 2 ^ 32 * 10 ^ 9⌋ := by
  have e : (n : ℚ) / 2 ^ 32 * 10 ^ 9 = ((n * 1000000000 : Nat) : ℚ) / ((4294967296 : Nat) : ℚ) := by
    push_cast
    ring
  rw [e, Rat.floor_natCast_div_natCast]
  rfl

/-- C3, as the code has it: for every 8-byte timestamp `parseNtpTimestampFormatSplit` returns
as seconds the big-endian unsigned 32-bit value of bytes 0-3 and as nanosecond fraction the
integer part of `fraction / 2 ^ 32 * 10 ^ 9` (the float product is exact and `int` cuts the
fraction off), where `fraction` is the big-endian unsigned 32-bit value of bytes 4-7. -/
theorem split_truncates_fraction (rt : Runtime) (t : ByteSlice) (h : t.len = 8) :
    ∃ seconds fraction : Nat,
      seconds = (t.byte 0).val * 2 ^ 24 + (t.byte 1).val * 2 ^ 16 + (t.byte 2).val * 2 ^ 8 +
        (t.byte 3).val ∧
      fraction = (t.byte 4).val * 2 ^ 24 + (t.byte 5).val * 2 ^ 16 + (t.byte 6).val * 2 ^ 8 +
        (t.byte 7).val ∧
      parseNtpTimestampFormatSplit rt t =
        .ok ((seconds : Int), ⌊(fraction : ℚ) / 2 ^ 32 * 10 ^ 9⌋) := by
  have hc := t.len_le_cap
  refine ⟨be32 t 0, be32 t 4, ?_, ?_, ?_⟩
  · simp only [be32]; norm_num
  · simp only [be32]; norm_num
  · rw [parseNtpTimestampFormatSplit_ok rt t (by omega), nanoOfFraction_eq_floor]

/-- C3 on the timestamp `00 00 00 01 80 00 00 00`: seconds 1, nanosecond fraction
500,000,000. -/
theorem split_of_one_and_half :
    timestampOneAndHalf.len = 8 ∧
    (∃ seconds fraction : Nat,
      seconds = (timestampOneAndHalf.byte 0).val * 2 ^ 24 +
        (timestampOneAndHalf.byte 1).val * 2 ^ 16 + (timestampOneAndHalf.byte 2).val * 2 ^ 8 +
        (timestampOneAndHalf.byte 3).val ∧
      fraction = (timestampOneAndHalf.byte 4).val * 2 ^ 24 +
        (timestampOneAndHalf.byte 5).val * 2 ^ 16 + (timestampOneAndHalf.byte 6).val * 2 ^ 8 +
        (timestampOneAndHalf.byte 7).val ∧
      parseNtpTimestampFormatSplit amd64UTC timestampOneAndHalf =
        .ok ((seconds : Int), ⌊(fraction : ℚ) / 2 ^ 32 * 10 ^ 9⌋)) ∧
    parseNtpTimestampFormatSplit amd64UTC timestampOneAndHalf = .ok (1, 500000000) :=
  ⟨by decide, split_truncates_fraction amd64UTC timestampOneAndHalf (by decide), by
    rw [parseNtpTimestampFormatSplit_ok amd64UTC timestampOneAndHalf (by decide)]; rfl⟩

/-- C3 refuted on the timestamp `00 00 00 00 00 00 00 03`: the fraction is about 0.698 ns,
which rounds to 1, and the code returns 0. -/
theorem split_does_not_round :
    parseNtpTimestampFormatSplit amd64UTC timestampThreeUnits = .ok (0, 0) ∧
    specFractionNano 3 = 1 := by
  constructor
  · rw [parseNtpTimestampFormatSplit_ok amd64UTC timestampThreeUnits (by decide)]
    rfl
  · simp only [specFractionNano]
    rw [round_eq, Int.floor_eq_iff]
    norm_num

/-! ## The request and the click handler -/

/-- C9: for every host, port, timeout and behaviour of the network, whatever `reqNtp` hands
to `s.Write` is the buffer it has just built: 48 bytes, byte 0 equal to
`0x1B = (0<<6)|(3<<3)|3`, the other 47 bytes zero. It is written once when the dial succeeds
and not at all when the dial fails (the buffer is then returned as built). -/
theorem request_is_0x1B_and_47_zeros (net : Network) (host : String) (port timeout : Int) :
    ((reqNtp net host port timeout).written = [] ∨
      (reqNtp net host port timeout).written = [0x1B :: List.replicate 47 0]) ∧
    (net.dial (host ++ ":" ++ itoa port) = none →
      (reqNtp net host port timeout).written = [0x1B :: List.replicate 47 0]) ∧
    (net.dial (host ++ ":" ++ itoa port) ≠ none →
      (reqNtp net host port timeout).written = [] ∧
      (reqNtp net host port timeout).buffer = ⟨0x1B :: List.replicate 47 0, []⟩) ∧
    ((0x1B : Byte) :: List.replicate 47 0).length = 48 ∧
    ((0x1B : Byte) :: List.replicate 47 0)[0]? = some 0x1B ∧
    (∀ i, 1 ≤ i → i < 48 → ((0x1B : Byte) :: List.replicate 47 0)[i]? = some 0x00) ∧
    (0x1B : Nat) = (0 <<< 6) ||| (3 <<< 3) ||| 3 := by
  have hq : ((ByteSlice.make 48).set 0 0x1b) = ⟨0x1B :: List.replicate 47 0, []⟩ := rfl
  refine ⟨?_, ?_, ?_, rfl, rfl, ?_, by decide⟩
  · simp only [reqNtp, hq]
    cases net.dial (host ++ ":" ++ itoa port) with
    | some e => exact Or.inl rfl
    | none =>
      right
      cases net.write timeout (0x1B :: List.replicate 47 0) <;> rfl
  · intro hd
    simp only [reqNtp, hq, hd]
    cases net.write timeout (0x1B :: List.replicate 47 0) <;> rfl
  · intro hd
    simp only [reqNtp, hq]
    cases hdial : net.dial (host ++ ":" ++ itoa port) with
    | some e => exact ⟨rfl, rfl⟩
    | none => exact absurd hdial hd
  · intro i h1 h48
    obtain ⟨j, rfl⟩ : ∃ j, i = j + 1 := ⟨i - 1, by omega⟩
    simp only [List.getElem?_cons_succ]
    rw [List.getElem?_replicate]
    simp
    omega

/-- C10 refuted at timeout 0: the handler passes 0 to `reqNtp`, which is neither positive
nor the default 10. -/
theorem zero_timeout_is_passed_on :
    executeArgs "ntp.nict.jp" 123 0 = some ("ntp.nict.jp", 123, 0) := by
  decide

/-- C10, as the code has it: when the host field is not empty the handler calls `reqNtp`
with a timeout that is 10 (`NTP_TIMEOUT`) when the supplied `t` is negative and `t` itself
when `t ≥ 0`; the value passed is never negative, and it is 0 for `t = 0`. -/
theorem timeout_passed_to_reqNtp (host : String) (port t : Int) (h : host ≠ "") :
    ∃ p timeout, executeArgs host port t = some (host, p, timeout) ∧
      (t < 0 → timeout = 10) ∧ (0 ≤ t → timeout = t) ∧ 0 ≤ timeout ∧
      timeout = (if t < 0 then NTP_TIMEOUT else t) := by
  refine ⟨if port < 0 ∨ port > 65535 then NTP_PORT else port, if t < 0 then NTP_TIMEOUT else t,
    by simp [executeArgs, h], ?_, ?_, ?_, rfl⟩
  · intro ht; simp [ht, NTP_TIMEOUT]
  · intro ht
    have : ¬ t < 0 := by omega
    simp [this]
  · by_cases ht : t < 0
    · simp [ht, NTP_TIMEOUT]
    · simp only [ht, if_false]; omega

/-- C10, as the code has it, on a negative and on a positive timeout, and on an empty host
(no call at all). -/
theorem timeout_passed_examples :
    "ntp.nict.jp" ≠ "" ∧
    (∃ p timeout, executeArgs "ntp.nict.jp" 123 (-5) = some ("ntp.nict.jp", p, timeout) ∧
      ((-5 : Int) < 0 → timeout = 10) ∧ ((0 : Int) ≤ -5 → timeout = -5) ∧ 0 ≤ timeout ∧
      timeout = (if (-5 : Int) < 0 then NTP_TIMEOUT else -5)) ∧
    executeArgs "ntp.nict.jp" 123 (-5) = some ("ntp.nict.jp", 123, 10) ∧
    executeArgs "ntp.nict.jp" 123 3 = some ("ntp.nict.jp", 123, 3) ∧
    executeArgs "" 123 3 = none :=
  ⟨by decide, timeout_passed_to_reqNtp "ntp.nict.jp" 123 (-5) (by decide), by decide, by decide,
    by decide⟩

/-! ## The calendar fields denote the instant -/

theorem yoe_bounds (doe yoe doy : Int) (h0 : 0 ≤ doe) (h1 : doe < 146097)
    (hyoe : yoe = (doe - doe / 1460 + doe / 36524 - doe / 146096) / 365)
    (hdoy : doy = doe - (365 * yoe + yoe / 4 - yoe / 100)) :
    0 ≤ yoe ∧ yoe ≤ 399 ∧ 0 ≤ doy ∧ doy ≤ 365 ∧
      (doy = 365 → yoe % 4 = 3 ∧ (yoe % 100 ≠ 99 ∨ yoe = 399)) := by
  have hc : doe / 36524 = 0 ∨ doe / 36524 = 1 ∨ doe / 36524 = 2 ∨ doe / 36524 = 3 ∨
      doe / 36524 = 4 := by omega
  have he : doe / 146096 = 0 ∨ doe / 146096 = 1 := by omega
  rcases he with he | he
  · rcases hc with hc | hc | hc | hc | hc
    · rw [hc, he] at hyoe
      have hg : yoe / 100 = 0 := by omega
      omega
    · rw [hc, he] at hyoe
      have hg : yoe / 100 = 1 := by omega
      omega
    · rw [hc, he] at hyoe
      have hg : yoe / 100 = 2 := by omega
      omega
    · rw [hc, he] at hyoe
      have hg : yoe / 100 = 3 := by omega
      omega
    · omega
  · have : doe = 146096 := by omega
    subst this
    omega

theorem isLeapYear_iff (y : Int) :
    isLeapYear y = true ↔ (y % 4 = 0 ∧ (y % 100 ≠ 0 ∨ y % 400 = 0)) := by
  simp [isLeapYear]

/-- Days up to 1 March of the year `yoe` of era `era`, through the following 1 January. -/
theorem daysBeforeYear_succ (era yoe : Int) (h0 : 0 ≤ yoe) (h1 : yoe ≤ 399) :
    daysBeforeYear (yoe + era * 400 + 1) - 306 =
      era * 146097 + (365 * yoe + yoe / 4 - yoe / 100) - 719468 := by
  have e4 : (yoe + era * 400 + 1 - 1) / 4 = 100 * era + yoe / 4 := by omega
  have e100 : (yoe + era * 400 + 1 - 1) / 100 = 4 * era + yoe / 100 := by omega
  have e400 : (yoe + era * 400 + 1 - 1) / 400 = era := by omega
  simp only [daysBeforeYear, e4, e100, e400]
  omega

theorem div_pred (y k : Int) (hk : 0 < k) (h : y % k = 0) : (y - 1) / k = y / k - 1 := by
  obtain ⟨q, rfl⟩ : k ∣ y := Int.dvd_of_emod_eq_zero h
  have h1 : k * q - 1 = (k - 1) + k * (q - 1) := by ring
  rw [h1, Int.add_mul_ediv_left _ _ (ne_of_gt hk), Int.mul_ediv_cancel_left _ (ne_of_gt hk),
    Int.ediv_eq_zero_of_lt (by omega) (by omega)]
  ring

theorem div_pred_of_ne (y k : Int) (hk : 0 < k) (h : y % k ≠ 0) : (y - 1) / k = y / k := by
  have h0 := Int.emod_nonneg y (ne_of_gt hk)
  have h1 := Int.emod_lt_of_pos y hk
  have h2 := Int.ediv_add_emod y k
  have h3 : y - 1 = (y % k - 1) + k * (y / k) := by omega
  rw [h3, Int.add_mul_ediv_left _ _ (ne_of_gt hk), Int.ediv_eq_zero_of_lt (by omega) (by omega)]
  ring

theorem daysBeforeYear_step (y : Int) :
    daysBeforeYear (y + 1) = daysBeforeYear y + 365 + (if isLeapYear y = true then 1 else 0) := by
  have hl := isLeapYear_iff y
  have e : y + 1 - 1 = y := by omega
  have c1 : y % 100 = 0 → y % 4 = 0 := by omega
  have c2 : y % 400 = 0 → y % 100 = 0 := by omega
  simp only [daysBeforeYear, e]
  by_cases h4 : y % 4 = 0
  · by_cases h100 : y % 100 = 0
    · by_cases h400 : y % 400 = 0
      · have hL : isLeapYear y = true := hl.2 ⟨h4, Or.inr h400⟩
        rw [div_pred y 4 (by norm_num) h4, div_pred y 100 (by norm_num) h100,
          div_pred y 400 (by norm_num) h400, if_pos hL]
        ring
      · have hL : ¬ isLeapYear y = true := fun hx => by
          rcases (hl.1 hx).2 with hx | hx
          · exact hx h100
          · exact h400 hx
        rw [div_pred y 4 (by norm_num) h4, div_pred y 100 (by norm_num) h100,
          div_pred_of_ne y 400 (by norm_num) h400, if_neg hL]
        ring
    · have h400 : y % 400 ≠ 0 := fun hx => h100 (c2 hx)
      have hL : isLeapYear y = true := hl.2 ⟨h4, Or.inl h100⟩
      rw [div_pred y 4 (by norm_num) h4, div_pred_of_ne y 100 (by norm_num) h100,
        div_pred_of_ne y 400 (by norm_num) h400, if_pos hL]
      ring
  · have h100 : y % 100 ≠ 0 := fun hx => h4 (c1 hx)
    have h400 : y % 400 ≠ 0 := fun hx => h100 (c2 hx)
    have hL : ¬ isLeapYear y = true := fun hx => h4 (hl.1 hx).1
    rw [div_pred_of_ne y 4 (by norm_num) h4, div_pred_of_ne y 100 (by norm_num) h100,
      div_pred_of_ne y 400 (by norm_num) h400, if_neg hL]
    ring

theorem month_of_doy (doy mp d m : Int) (h0 : 0 ≤ doy) (h1 : doy ≤ 365)
    (hmp : mp = (5 * doy + 2) / 153) (hd : d = doy - (153 * mp + 2) / 5 + 1)
    (hm : m = if mp < 10 then mp + 3 else mp - 9) :
    1 ≤ m ∧ m ≤ 12 ∧ 1 ≤ d ∧
    (3 ≤ m → d ≤ (if m = 4 ∨ m = 6 ∨ m = 9 ∨ m = 11 then 30 else 31)) ∧
    (m = 1 → d ≤ 31) ∧ (m = 2 → d ≤ 29 ∧ (d = 29 → doy = 365)) ∧
    (if m = 1 then 0 else if m = 2 then 31 else if m = 3 then 59 else if m = 4 then 90
      else if m = 5 then 120 else if m = 6 then 151 else if m = 7 then 181
      else if m = 8 then 212 else if m = 9 then 243 else if m = 10 then 273
      else if m = 11 then 304 else (334 : Int)) + (d - 1) =
      (if m ≤ 2 then doy - 306 else doy + 59) := by
  have hmp' : mp = 0 ∨ mp = 1 ∨ mp = 2 ∨ mp = 3 ∨ mp = 4 ∨ mp = 5 ∨ mp = 6 ∨ mp = 7 ∨ mp = 8 ∨
      mp = 9 ∨ mp = 10 ∨ mp = 11 := by omega
  rcases hmp' with h | h | h | h | h | h | h | h | h | h | h | h <;>
    (subst h; norm_num at hm; subst hm; norm_num; omega)

theorem isLeapYear_of_last_day (yoe era : Int) (h4 : yoe % 4 = 3) (h : yoe % 100 ≠ 99 ∨ yoe = 399) :
    isLeapYear (yoe + era * 400 + 1) = true := by
  rw [isLeapYear_iff]
  omega

theorem date_of_day_number (z era doe yoe doy mp d m y : Int)
    (hera : era = z / 146097) (hdoe : doe = z % 146097)
    (hyoe : yoe = (doe - doe / 1460 + doe / 36524 - doe / 146096) / 365)
    (hdoy : doy = doe - (365 * yoe + yoe / 4 - yoe / 100))
    (hmp : mp = (5 * doy + 2) / 153) (hd : d = doy - (153 * mp + 2) / 5 + 1)
    (hm : m = if mp < 10 then mp + 3 else mp - 9)
    (hy : y = yoe + era * 400 + (if m ≤ 2 then 1 else 0)) :
    daysBeforeYear y + daysBeforeMonth y m + (d - 1) = z - 719468 ∧
      1 ≤ m ∧ m ≤ 12 ∧ 1 ≤ d ∧ d ≤ daysInMonth y m := by
  have hdoe0 : 0 ≤ doe ∧ doe < 146097 := by omega
  have hz : z = era * 146097 + doe := by omega
  obtain ⟨y0, y1, d0, d1, hleap⟩ := yoe_bounds doe yoe doy hdoe0.1 hdoe0.2 hyoe hdoy
  obtain ⟨m1, m12, dge, dhi, djan, dfeb, hsum⟩ := month_of_doy doy mp d m d0 d1 hmp hd hm
  have hY := daysBeforeYear_succ era yoe y0 y1
  have hS := daysBeforeYear_step (yoe + era * 400)
  clear hera hdoe hyoe hmp hd hm hdoe0
  generalize 365 * yoe + yoe / 4 - yoe / 100 = S at hdoy hY
  refine ⟨?_, m1, m12, dge, ?_⟩
  · simp only [daysBeforeMonth]
    by_cases hm2 : m ≤ 2
    · have hadj : ¬ (2 < m ∧ isLeapYear y = true) := fun hx => by omega
      rw [if_pos hm2] at hsum hy
      rw [if_neg hadj, hy]
      clear hleap dhi djan dfeb hS
      omega
    · rw [if_neg hm2] at hsum hy
      have hy' : y = yoe + era * 400 := by omega
      subst hy'
      clear hleap dhi djan dfeb hy
      by_cases hL : isLeapYear (yoe + era * 400) = true
      · have hadj : 2 < m ∧ isLeapYear (yoe + era * 400) = true := ⟨by omega, hL⟩
        rw [if_pos hadj]
        rw [if_pos hL] at hS
        omega
      · have hadj : ¬ (2 < m ∧ isLeapYear (yoe + era * 400) = true) := fun hx => hL hx.2
        rw [if_neg hadj]
        rw [if_neg hL] at hS
        omega
  · simp only [daysInMonth]
    by_cases hm2 : m = 2
    · rw [if_pos hm2]
      have hd29 := dfeb hm2
      by_cases hL : isLeapYear y = true
      · rw [if_pos hL]; exact hd29.1
      · rw [if_neg hL]
        by_contra hcon
        have h29 : d = 29 := by omega
        have hq := hleap (hd29.2 h29)
        have hm2' : m ≤ 2 := by omega
        rw [if_pos hm2'] at hy
        rw [hy] at hL
        exact hL (isLeapYear_of_last_day yoe era hq.1 hq.2)
    · rw [if_neg hm2]
      by_cases hm1 : m = 1
      · have hx : ¬ (m = 4 ∨ m = 6 ∨ m = 9 ∨ m = 11) := by omega
        rw [if_neg hx]
        exact djan hm1
      · exact dhi (by omega)

theorem civilOfSeconds_sound (loc : Int) :
    secondsOfCivil (civilOfSeconds loc) = loc ∧ (civilOfSeconds loc).IsValid := by
  have key := date_of_day_number (loc / 86400 + 719468) _ _ _ _ _ _ _ _ rfl rfl rfl rfl rfl rfl
    rfl rfl
  simp only [civilOfSeconds, secondsOfCivil, Civil.IsValid]
  refine ⟨?_, key.2.1, key.2.2.1, key.2.2.2.1, key.2.2.2.2, ?_⟩
  · rw [key.1]
    omega
  · omega

/-! ## The calendar rendering of a timestamp -/

/-- C8, as the code has it: for NTP seconds `s` (32 bits) and a nanosecond fraction `f` the
text is the date and time of day, in the local zone, of the second that lies
`s - 2,208,988,800` seconds after 1970-01-01T00:00:00Z, followed by the fraction `f` with
its trailing zeros removed (nothing at all when `f = 0`) and by the zone (`Z` for offset 0,
else the offset as hours and minutes). -/
theorem convert_renders_instant (rt : Runtime) (s f : Int) (hs : 0 ≤ s) (hs' : s < 2 ^ 32)
    (hf : 0 ≤ f) (hf' : f < 10 ^ 9) :
    ∃ (c : Civil) (offset : Int),
      offset = rt.localOffset (s - 2208988800) ∧ c.IsValid ∧
      secondsOfCivil c = s - 2208988800 + offset ∧
      convertNtpTimestampToIso8601ExtendedFormat rt s f =
        appendInt c.year 4 ++ "-" ++ appendInt c.month 2 ++ "-" ++ appendInt c.day 2 ++ "T" ++
          appendInt c.hour 2 ++ ":" ++ appendInt c.minute 2 ++ ":" ++ appendInt c.second 2 ++
          (if f = 0 then "" else "." ++ trimTrailingZeros (appendInt f 9)) ++
          appendZone offset := by
  have hw : wrap64 (s - UNIX_TIME_OFFSET) = s - 2208988800 := by
    simp only [wrap64, UNIX_TIME_OFFSET]
    omega
  have ht : timeUnix (s - 2208988800) f = ⟨s - 2208988800, f⟩ := by
    have : ¬ (f < 0 ∨ f ≥ 1000000000) := by omega
    simp only [timeUnix, this, if_false]
  have hc := civilOfSeconds_sound (s - 2208988800 + rt.localOffset (s - 2208988800))
  refine ⟨civilOfSeconds (s - 2208988800 + rt.localOffset (s - 2208988800)),
    rt.localOffset (s - 2208988800), rfl, hc.2, hc.1, ?_⟩
  simp only [convertNtpTimestampToIso8601ExtendedFormat, hw, ht, formatRFC3339Nano, appendNano]

/-- C8, as the code has it, on the epoch in a UTC zone, and the text of
2024-01-01T00:00:00.5Z. -/
theorem convert_renders_epoch :
    ((0 : Int) ≤ 2208988800 ∧ (2208988800 : Int) < 2 ^ 32 ∧ (0 : Int) ≤ 0 ∧ (0 : Int) < 10 ^ 9) ∧
    (∃ (c : Civil) (offset : Int),
      offset = amd64UTC.localOffset (2208988800 - 2208988800) ∧ c.IsValid ∧
      secondsOfCivil c = 2208988800 - 2208988800 + offset ∧
      convertNtpTimestampToIso8601ExtendedFormat amd64UTC 2208988800 0 =
        appendInt c.year 4 ++ "-" ++ appendInt c.month 2 ++ "-" ++ appendInt c.day 2 ++ "T" ++
          appendInt c.hour 2 ++ ":" ++ appendInt c.minute 2 ++ ":" ++ appendInt c.second 2 ++
          (if (0 : Int) = 0 then "" else "." ++ trimTrailingZeros (appendInt 0 9)) ++
          appendZone offset) ∧
    convertNtpTimestampToIso8601ExtendedFormat amd64UTC 3913056000 500000000 =
      "2024-01-01T00:00:00.5Z" :=
  ⟨by decide, convert_renders_instant amd64UTC 2208988800 0 (by decide) (by decide) (by decide)
    (by decide), by decide⟩

set_option maxRecDepth 20000 in
/-- C8 refuted at seconds 2,208,988,800 and fraction 0: in a UTC zone the text is
"1970-01-01T00:00:00Z", without the nine fraction digits, and nine hours east of UTC it is
"1970-01-01T09:00:00+09:00". -/
theorem epoch_text_has_no_fraction :
    convertNtpTimestampToIso8601ExtendedFormat amd64UTC 2208988800 0 = "1970-01-01T00:00:00Z" ∧
    convertNtpTimestampToIso8601ExtendedFormat amd64UTC 2208988800 0 ≠
      "1970-01-01T00:00:00.000000000Z" ∧
    convertNtpTimestampToIso8601ExtendedFormat amd64Tokyo 2208988800 0 =
      "1970-01-01T09:00:00+09:00" := by
  decide

end SimpleNtp
